import Mathlib

/-!
Verification development for the vellum-ui command/event bridge.

The Rust sources embedded here (shallowly) are:
  * `src/ipc/msgpack.rs`   — length-framed MsgPack transport (`write_msgpack_frame`,
    `read_msgpack_frame`, message taxonomies `JsToRustMessage` / `RustToJsMessage`);
  * `src/ipc/server.rs`    — the socket read-thread loop;
  * `src/ui/widget_manager.rs` — the widget registry (`WidgetManager`);
  * `src/ui/handler.rs`    — the command dispatcher (`handle_client_command`);
  * `src/ui_thread/handler.rs` — the older coexisting registry variant whose
    `next_child_index` is a stored counter.

Machine integers are embedded as `Nat` with explicit `% 2 ^ 32` where Rust
performs an `as u32` cast.  Byte streams are `List Nat` (each element a byte
value).  Rust `HashMap`s are embedded as association lists in insertion order;
all registry theorems are stated up to permutation or via key lookup, so the
arbitrary iteration order of the Rust `HashMap` is not load-bearing.
-/

/-! ## Byte-order helpers

`u32::to_le_bytes` / `u32::from_le_bytes` and the big-endian length fields of
the wire encoding. -/

/-- Little-endian byte list (least significant first) of `n`, `k` bytes wide.
Mirrors `u32::to_le_bytes` when `k = 4` and `n < 2 ^ 32`. -/
def leBytes : Nat → Nat → List Nat
  | 0, _ => []
  | k + 1, n => n % 256 :: leBytes k (n / 256)

/-- Value of a little-endian byte list, as in `u32::from_le_bytes`. -/
def leVal (bs : List Nat) : Nat :=
  match bs with
  | [] => 0
  | b :: rest => b + 256 * leVal rest

/-- Big-endian byte list (most significant first) of `n`, `k` bytes wide. -/
def beBytes (k n : Nat) : List Nat :=
  (leBytes k n).reverse

/-- Value of a big-endian byte list. -/
def beVal (bs : List Nat) : Nat :=
  bs.foldl (fun acc b => acc * 256 + b) 0

theorem leBytes_length (k n : Nat) : (leBytes k n).length = k := by
  induction k generalizing n with
  | zero => rfl
  | succ k ih => simp [leBytes, ih]

theorem leVal_leBytes (k n : Nat) (h : n < 256 ^ k) : leVal (leBytes k n) = n := by
  induction k generalizing n with
  | zero =>
    simp [leBytes, leVal]
    omega
  | succ k ih =>
    have hdiv : n / 256 < 256 ^ k := by
      rw [Nat.div_lt_iff_lt_mul (by norm_num : 0 < 256)]
      calc n < 256 ^ (k + 1) := h
        _ = 256 ^ k * 256 := by ring
    simp only [leBytes, leVal, ih (n / 256) hdiv]
    omega

theorem leVal_leBytes_mod (k n : Nat) : leVal (leBytes k n) = n % 256 ^ k := by
  induction k generalizing n with
  | zero => simp [leBytes, leVal, Nat.mod_one]
  | succ k ih =>
    simp only [leBytes, leVal, ih (n / 256)]
    rw [pow_succ', Nat.mod_mul]

theorem beVal_append (bs : List Nat) (b : Nat) :
    beVal (bs ++ [b]) = beVal bs * 256 + b := by
  simp [beVal, List.foldl_append]

theorem beVal_beBytes (k n : Nat) (h : n < 256 ^ k) : beVal (beBytes k n) = n := by
  have key : ∀ m v, v < 256 ^ m → beVal ((leBytes m v).reverse) = v := by
    intro m
    induction m with
    | zero =>
      intro v hv
      simp [leBytes, beVal]
      omega
    | succ m ih =>
      intro v hv
      have hdiv : v / 256 < 256 ^ m := by
        rw [Nat.div_lt_iff_lt_mul (by norm_num : 0 < 256)]
        calc v < 256 ^ (m + 1) := hv
          _ = 256 ^ m * 256 := by ring
      simp only [leBytes, List.reverse_cons, beVal_append, ih (v / 256) hdiv]
      omega
  exact key k n h

theorem beBytes_length (k n : Nat) : (beBytes k n).length = k := by
  simp [beBytes, leBytes_length]

/-! ## MsgPack payload encoding

`src/ipc/msgpack.rs` delegates payload (de)serialization to
`rmp_serde::to_vec_named` / `rmp_serde::from_slice`, an external crate whose
derived codec is not part of this repository's sources.

Modelled from the spec: the payload is "a self-describing structured encoding
(map-like, field-tagged)" of one tagged-union variant (§6, §4.2) — i.e. a
MsgPack map whose first entry is the serde `type` tag and whose remaining
entries are the variant's named fields.  The model uses the fixed-width
MsgPack forms throughout (`nil` c0, `false` c2 / `true` c3, `uint64` cf,
`float64` cb, `str32` db, `bin32` c6, `map32` df); lengths are big-endian,
as MsgPack prescribes.  Rust `String` fields are embedded as their UTF-8 byte
lists, `f64` fields as their 64-bit IEEE-754 bit pattern. -/

/-- A scalar MsgPack value: the field payloads of the §4.2 message unions. -/
inductive Scalar
  | snil
  | sbool (b : Bool)
  | suint (n : Nat)
  | sf64 (bits : Nat)
  | sstr (s : List Nat)
  | sbin (b : List Nat)
  deriving DecidableEq

/-- A MsgPack value of the nesting depth the §4.2 envelopes need: a scalar, or
a map from string field names to scalars (the nested `event` payload). -/
inductive MVal
  | mscalar (s : Scalar)
  | mmap (ps : List (List Nat × Scalar))
  deriving DecidableEq

/-- Encode one scalar to MsgPack bytes (fixed-width forms). -/
def encScalar : Scalar → List Nat
  | .snil => [0xc0]
  | .sbool false => [0xc2]
  | .sbool true => [0xc3]
  | .suint n => 0xcf :: beBytes 8 n
  | .sf64 bits => 0xcb :: beBytes 8 bits
  | .sstr s => 0xdb :: beBytes 4 s.length ++ s
  | .sbin b => 0xc6 :: beBytes 4 b.length ++ b

/-- Encode the entries of a string-keyed map of scalars. -/
def encEntriesS : List (List Nat × Scalar) → List Nat
  | [] => []
  | (k, v) :: ps => encScalar (.sstr k) ++ (encScalar v ++ encEntriesS ps)

/-- Encode one MsgPack value (scalar, or `map32` of scalars). -/
def encMVal : MVal → List Nat
  | .mscalar s => encScalar s
  | .mmap ps => 0xdf :: beBytes 4 ps.length ++ encEntriesS ps

/-- Encode the entries of a string-keyed map of MsgPack values. -/
def encEntriesV : List (List Nat × MVal) → List Nat
  | [] => []
  | (k, v) :: ps => encScalar (.sstr k) ++ (encMVal v ++ encEntriesV ps)

/-- Encode a whole message envelope: a `map32` from field names to values. -/
def encTopMap (ps : List (List Nat × MVal)) : List Nat :=
  0xdf :: beBytes 4 ps.length ++ encEntriesV ps

/-- `Read::read_exact` over a byte list: `n` bytes and the remaining stream,
or `None` when the stream ends first (Rust reports `ErrorKind::UnexpectedEof`
whether zero or some of the `n` bytes were available). -/
def readExactBytes (input : List Nat) (n : Nat) : Option (List Nat × List Nat) :=
  if n ≤ input.length then some (input.take n, input.drop n) else none

/-- Decode one scalar from the head of a byte stream. -/
def parseScalar (input : List Nat) : Option (Scalar × List Nat) :=
  match input with
  | 0xc0 :: rest => some (.snil, rest)
  | 0xc2 :: rest => some (.sbool false, rest)
  | 0xc3 :: rest => some (.sbool true, rest)
  | 0xcf :: rest => do
    let (bs, r) ← readExactBytes rest 8
    pure (.suint (beVal bs), r)
  | 0xcb :: rest => do
    let (bs, r) ← readExactBytes rest 8
    pure (.sf64 (beVal bs), r)
  | 0xdb :: rest => do
    let (lb, r) ← readExactBytes rest 4
    let (s, r2) ← readExactBytes r (beVal lb)
    pure (.sstr s, r2)
  | 0xc6 :: rest => do
    let (lb, r) ← readExactBytes rest 4
    let (b, r2) ← readExactBytes r (beVal lb)
    pure (.sbin b, r2)
  | _ => none

/-- Decode `n` string-keyed scalar map entries. -/
def parseEntriesS : Nat → List Nat → Option (List (List Nat × Scalar) × List Nat)
  | 0, input => some ([], input)
  | n + 1, input => do
    let (k, r1) ← parseScalar input
    match k with
    | .sstr ks => do
      let (v, r2) ← parseScalar r1
      let (ps, r3) ← parseEntriesS n r2
      pure ((ks, v) :: ps, r3)
    | _ => none

/-- Decode one MsgPack value (`map32` of scalars, or a scalar). -/
def parseMVal (input : List Nat) : Option (MVal × List Nat) :=
  match input with
  | 0xdf :: rest => do
    let (cb, r1) ← readExactBytes rest 4
    let (ps, r2) ← parseEntriesS (beVal cb) r1
    pure (.mmap ps, r2)
  | _ => do
    let (s, r) ← parseScalar input
    pure (.mscalar s, r)

/-- Decode `n` string-keyed map entries with MsgPack-value payloads. -/
def parseEntriesV : Nat → List Nat → Option (List (List Nat × MVal) × List Nat)
  | 0, input => some ([], input)
  | n + 1, input => do
    let (k, r1) ← parseScalar input
    match k with
    | .sstr ks => do
      let (v, r2) ← parseMVal r1
      let (ps, r3) ← parseEntriesV n r2
      pure ((ks, v) :: ps, r3)
    | _ => none

/-- Decode a whole message envelope map. -/
def parseTopMap (input : List Nat) : Option (List (List Nat × MVal) × List Nat) :=
  match input with
  | 0xdf :: rest => do
    let (cb, r1) ← readExactBytes rest 4
    let (ps, r2) ← parseEntriesV (beVal cb) r1
    pure (ps, r2)
  | _ => none

/-- Well-formedness of a scalar: numeric fields fit their Rust machine type
and byte-string lengths fit the 32-bit MsgPack length field. -/
def wfScalar : Scalar → Bool
  | .snil => true
  | .sbool _ => true
  | .suint n => n < 2 ^ 64
  | .sf64 bits => bits < 2 ^ 64
  | .sstr s => s.length < 2 ^ 32
  | .sbin b => b.length < 2 ^ 32

/-- Well-formedness of a MsgPack value. -/
def wfMVal : MVal → Bool
  | .mscalar s => wfScalar s
  | .mmap ps =>
    decide (ps.length < 2 ^ 32) &&
      ps.all (fun p => decide (p.1.length < 2 ^ 32) && wfScalar p.2)

/-- Well-formedness of an envelope map. -/
def wfTopMap (ps : List (List Nat × MVal)) : Bool :=
  decide (ps.length < 2 ^ 32) &&
    ps.all (fun p => decide (p.1.length < 2 ^ 32) && wfMVal p.2)

/-! ## Message taxonomies

`JsToRustMessage` is embedded field-for-field from `src/ipc/msgpack.rs`
(serde internally tagged with `tag = "type"`, variant names camelCased,
field names as written).  `String` fields are UTF-8 byte lists, `f64` the
64-bit bit pattern, `u32` a `Nat` (well-formedness bounds it). -/

/-- Client→Host commands (`JsToRustMessage`, `src/ipc/msgpack.rs:15-70`). -/
inductive JsToRustMessage
  | setTitle (title : List Nat)
  | createWidget (id kind : List Nat)
      (parent_id text style_json widget_params_json : Option (List Nat))
      (data : Option (List Nat))
  | removeWidget (id : List Nat)
  | setWidgetText (id text : List Nat)
  | setWidgetVisible (id : List Nat) (visible : Bool)
  | setWidgetStyle (id style_json : List Nat)
  | setStyleProperty (id property value : List Nat)
  | setWidgetValue (id : List Nat) (value : Nat)
  | setWidgetChecked (id : List Nat) (checked : Bool)
  | resizeWindow (width height : Nat)
  | closeWindow
  | exitApp
  | setImageData (id data : List Nat)
  deriving DecidableEq

/-- Modelled from the spec: the generic UI-event payload of §4.2 ("a generic
UI event payload … and a runtime-error report carrying a source tag, a
human-readable message, and a fatal flag").  Its defining module
(`src/ipc/events.rs`) is not among the sources; the two arms are
reconstructed from their uses in `src/ui/handler.rs` and `src/ipc/mod.rs`. -/
inductive UiEventWire
  | runtimeError (source message : List Nat) (fatal : Bool)
  | widgetAction (widget_id action : List Nat)
  deriving DecidableEq

/-- Host→Client events (`RustToJsMessage`, `src/ipc/msgpack.rs:8-13`). -/
inductive RustToJsMessage
  | uiEvent (event : UiEventWire)
  | shutdown
  deriving DecidableEq

/-- ASCII bytes of the wire name `"type"`. -/
def keyType : List Nat := [116, 121, 112, 101]

/-- ASCII bytes of the wire name `"title"`. -/
def keyTitle : List Nat := [116, 105, 116, 108, 101]

/-- ASCII bytes of the wire name `"id"`. -/
def keyId : List Nat := [105, 100]

/-- ASCII bytes of the wire name `"kind"`. -/
def keyKind : List Nat := [107, 105, 110, 100]

/-- ASCII bytes of the wire name `"parent_id"`. -/
def keyParentId : List Nat := [112, 97, 114, 101, 110, 116, 95, 105, 100]

/-- ASCII bytes of the wire name `"text"`. -/
def keyText : List Nat := [116, 101, 120, 116]

/-- ASCII bytes of the wire name `"style_json"`. -/
def keyStyleJson : List Nat := [115, 116, 121, 108, 101, 95, 106, 115, 111, 110]

/-- ASCII bytes of the wire name `"widget_params_json"`. -/
def keyWidgetParamsJson : List Nat := [119, 105, 100, 103, 101, 116, 95, 112, 97, 114, 97, 109, 115, 95, 106, 115, 111, 110]

/-- ASCII bytes of the wire name `"data"`. -/
def keyData : List Nat := [100, 97, 116, 97]

/-- ASCII bytes of the wire name `"visible"`. -/
def keyVisible : List Nat := [118, 105, 115, 105, 98, 108, 101]

/-- ASCII bytes of the wire name `"property"`. -/
def keyProperty : List Nat := [112, 114, 111, 112, 101, 114, 116, 121]

/-- ASCII bytes of the wire name `"value"`. -/
def keyValue : List Nat := [118, 97, 108, 117, 101]

/-- ASCII bytes of the wire name `"checked"`. -/
def keyChecked : List Nat := [99, 104, 101, 99, 107, 101, 100]

/-- ASCII bytes of the wire name `"width"`. -/
def keyWidth : List Nat := [119, 105, 100, 116, 104]

/-- ASCII bytes of the wire name `"height"`. -/
def keyHeight : List Nat := [104, 101, 105, 103, 104, 116]

/-- ASCII bytes of the wire name `"event"`. -/
def keyEvent : List Nat := [101, 118, 101, 110, 116]

/-- ASCII bytes of the wire name `"source"`. -/
def keySource : List Nat := [115, 111, 117, 114, 99, 101]

/-- ASCII bytes of the wire name `"message"`. -/
def keyMessage : List Nat := [109, 101, 115, 115, 97, 103, 101]

/-- ASCII bytes of the wire name `"fatal"`. -/
def keyFatal : List Nat := [102, 97, 116, 97, 108]

/-- ASCII bytes of the wire name `"widget_id"`. -/
def keyWidgetId : List Nat := [119, 105, 100, 103, 101, 116, 95, 105, 100]

/-- ASCII bytes of the wire name `"action"`. -/
def keyAction : List Nat := [97, 99, 116, 105, 111, 110]

/-- ASCII bytes of the wire name `"setTitle"`. -/
def tagSetTitle : List Nat := [115, 101, 116, 84, 105, 116, 108, 101]

/-- ASCII bytes of the wire name `"createWidget"`. -/
def tagCreateWidget : List Nat := [99, 114, 101, 97, 116, 101, 87, 105, 100, 103, 101, 116]

/-- ASCII bytes of the wire name `"removeWidget"`. -/
def tagRemoveWidget : List Nat := [114, 101, 109, 111, 118, 101, 87, 105, 100, 103, 101, 116]

/-- ASCII bytes of the wire name `"setWidgetText"`. -/
def tagSetWidgetText : List Nat := [115, 101, 116, 87, 105, 100, 103, 101, 116, 84, 101, 120, 116]

/-- ASCII bytes of the wire name `"setWidgetVisible"`. -/
def tagSetWidgetVisible : List Nat := [115, 101, 116, 87, 105, 100, 103, 101, 116, 86, 105, 115, 105, 98, 108, 101]

/-- ASCII bytes of the wire name `"setWidgetStyle"`. -/
def tagSetWidgetStyle : List Nat := [115, 101, 116, 87, 105, 100, 103, 101, 116, 83, 116, 121, 108, 101]

/-- ASCII bytes of the wire name `"setStyleProperty"`. -/
def tagSetStyleProperty : List Nat := [115, 101, 116, 83, 116, 121, 108, 101, 80, 114, 111, 112, 101, 114, 116, 121]

/-- ASCII bytes of the wire name `"setWidgetValue"`. -/
def tagSetWidgetValue : List Nat := [115, 101, 116, 87, 105, 100, 103, 101, 116, 86, 97, 108, 117, 101]

/-- ASCII bytes of the wire name `"setWidgetChecked"`. -/
def tagSetWidgetChecked : List Nat := [115, 101, 116, 87, 105, 100, 103, 101, 116, 67, 104, 101, 99, 107, 101, 100]

/-- ASCII bytes of the wire name `"resizeWindow"`. -/
def tagResizeWindow : List Nat := [114, 101, 115, 105, 122, 101, 87, 105, 110, 100, 111, 119]

/-- ASCII bytes of the wire name `"closeWindow"`. -/
def tagCloseWindow : List Nat := [99, 108, 111, 115, 101, 87, 105, 110, 100, 111, 119]

/-- ASCII bytes of the wire name `"exitApp"`. -/
def tagExitApp : List Nat := [101, 120, 105, 116, 65, 112, 112]

/-- ASCII bytes of the wire name `"setImageData"`. -/
def tagSetImageData : List Nat := [115, 101, 116, 73, 109, 97, 103, 101, 68, 97, 116, 97]

/-- ASCII bytes of the wire name `"uiEvent"`. -/
def tagUiEvent : List Nat := [117, 105, 69, 118, 101, 110, 116]

/-- ASCII bytes of the wire name `"shutdown"`. -/
def tagShutdown : List Nat := [115, 104, 117, 116, 100, 111, 119, 110]

/-- ASCII bytes of the wire name `"runtimeError"`. -/
def tagRuntimeError : List Nat := [114, 117, 110, 116, 105, 109, 101, 69, 114, 114, 111, 114]

/-- ASCII bytes of the wire name `"widgetAction"`. -/
def tagWidgetAction : List Nat := [119, 105, 100, 103, 101, 116, 65, 99, 116, 105, 111, 110]


/-- Scalar for an optional string field (`None` → nil, as serde encodes it). -/
def optStrVal : Option (List Nat) → Scalar
  | none => .snil
  | some s => .sstr s

/-- Scalar for an optional `serde_bytes` field (`None` → nil). -/
def optBinVal : Option (List Nat) → Scalar
  | none => .snil
  | some b => .sbin b

/-- The envelope map of one client command, in field order. -/
def jsMsgPairs : JsToRustMessage → List (List Nat × MVal)
  | .setTitle title =>
    [(keyType, .mscalar (.sstr tagSetTitle)), (keyTitle, .mscalar (.sstr title))]
  | .createWidget id kind parent_id text style_json widget_params_json data =>
    [(keyType, .mscalar (.sstr tagCreateWidget)), (keyId, .mscalar (.sstr id)),
     (keyKind, .mscalar (.sstr kind)), (keyParentId, .mscalar (optStrVal parent_id)),
     (keyText, .mscalar (optStrVal text)), (keyStyleJson, .mscalar (optStrVal style_json)),
     (keyWidgetParamsJson, .mscalar (optStrVal widget_params_json)),
     (keyData, .mscalar (optBinVal data))]
  | .removeWidget id =>
    [(keyType, .mscalar (.sstr tagRemoveWidget)), (keyId, .mscalar (.sstr id))]
  | .setWidgetText id text =>
    [(keyType, .mscalar (.sstr tagSetWidgetText)), (keyId, .mscalar (.sstr id)),
     (keyText, .mscalar (.sstr text))]
  | .setWidgetVisible id visible =>
    [(keyType, .mscalar (.sstr tagSetWidgetVisible)), (keyId, .mscalar (.sstr id)),
     (keyVisible, .mscalar (.sbool visible))]
  | .setWidgetStyle id style_json =>
    [(keyType, .mscalar (.sstr tagSetWidgetStyle)), (keyId, .mscalar (.sstr id)),
     (keyStyleJson, .mscalar (.sstr style_json))]
  | .setStyleProperty id property value =>
    [(keyType, .mscalar (.sstr tagSetStyleProperty)), (keyId, .mscalar (.sstr id)),
     (keyProperty, .mscalar (.sstr property)), (keyValue, .mscalar (.sstr value))]
  | .setWidgetValue id value =>
    [(keyType, .mscalar (.sstr tagSetWidgetValue)), (keyId, .mscalar (.sstr id)),
     (keyValue, .mscalar (.sf64 value))]
  | .setWidgetChecked id checked =>
    [(keyType, .mscalar (.sstr tagSetWidgetChecked)), (keyId, .mscalar (.sstr id)),
     (keyChecked, .mscalar (.sbool checked))]
  | .resizeWindow width height =>
    [(keyType, .mscalar (.sstr tagResizeWindow)), (keyWidth, .mscalar (.suint width)),
     (keyHeight, .mscalar (.suint height))]
  | .closeWindow => [(keyType, .mscalar (.sstr tagCloseWindow))]
  | .exitApp => [(keyType, .mscalar (.sstr tagExitApp))]
  | .setImageData id data =>
    [(keyType, .mscalar (.sstr tagSetImageData)), (keyId, .mscalar (.sstr id)),
     (keyData, .mscalar (.sbin data))]

/-- The nested map of one UI event payload. -/
def uiEventPairs : UiEventWire → List (List Nat × Scalar)
  | .runtimeError source message fatal =>
    [(keyType, .sstr tagRuntimeError), (keySource, .sstr source),
     (keyMessage, .sstr message), (keyFatal, .sbool fatal)]
  | .widgetAction widget_id action =>
    [(keyType, .sstr tagWidgetAction), (keyWidgetId, .sstr widget_id),
     (keyAction, .sstr action)]

/-- The envelope map of one host event. -/
def rustMsgPairs : RustToJsMessage → List (List Nat × MVal)
  | .uiEvent event =>
    [(keyType, .mscalar (.sstr tagUiEvent)), (keyEvent, .mmap (uiEventPairs event))]
  | .shutdown => [(keyType, .mscalar (.sstr tagShutdown))]

/-- Read back a mandatory string field. -/
def decStr : MVal → Option (List Nat)
  | .mscalar (.sstr s) => some s
  | _ => none

/-- Read back an optional string field. -/
def decOptStr : MVal → Option (Option (List Nat))
  | .mscalar .snil => some none
  | .mscalar (.sstr s) => some (some s)
  | _ => none

/-- Read back an optional byte-blob field. -/
def decOptBin : MVal → Option (Option (List Nat))
  | .mscalar .snil => some none
  | .mscalar (.sbin b) => some (some b)
  | _ => none

/-- Read back a byte-blob field. -/
def decBin : MVal → Option (List Nat)
  | .mscalar (.sbin b) => some b
  | _ => none

/-- Read back a boolean field. -/
def decBool : MVal → Option Bool
  | .mscalar (.sbool b) => some b
  | _ => none

/-- Read back an unsigned-integer field. -/
def decUint : MVal → Option Nat
  | .mscalar (.suint n) => some n
  | _ => none

/-- Read back a float field (as its bit pattern). -/
def decF64 : MVal → Option Nat
  | .mscalar (.sf64 bits) => some bits
  | _ => none

/-- Rebuild a client command from its decoded envelope map. -/
def pairsToJsMsg (ps : List (List Nat × MVal)) : Option JsToRustMessage :=
  match ps with
  | (k0, .mscalar (.sstr tg)) :: rest =>
    if k0 ≠ keyType then none
    else if tg = tagSetTitle then
      match rest with
      | [(k1, v1)] =>
        if k1 = keyTitle then do pure (.setTitle (← decStr v1)) else none
      | _ => none
    else if tg = tagCreateWidget then
      match rest with
      | [(k1, v1), (k2, v2), (k3, v3), (k4, v4), (k5, v5), (k6, v6), (k7, v7)] =>
        if k1 = keyId ∧ k2 = keyKind ∧ k3 = keyParentId ∧ k4 = keyText ∧
            k5 = keyStyleJson ∧ k6 = keyWidgetParamsJson ∧ k7 = keyData then do
          pure (.createWidget (← decStr v1) (← decStr v2) (← decOptStr v3)
            (← decOptStr v4) (← decOptStr v5) (← decOptStr v6) (← decOptBin v7))
        else none
      | _ => none
    else if tg = tagRemoveWidget then
      match rest with
      | [(k1, v1)] =>
        if k1 = keyId then do pure (.removeWidget (← decStr v1)) else none
      | _ => none
    else if tg = tagSetWidgetText then
      match rest with
      | [(k1, v1), (k2, v2)] =>
        if k1 = keyId ∧ k2 = keyText then do
          pure (.setWidgetText (← decStr v1) (← decStr v2))
        else none
      | _ => none
    else if tg = tagSetWidgetVisible then
      match rest with
      | [(k1, v1), (k2, v2)] =>
        if k1 = keyId ∧ k2 = keyVisible then do
          pure (.setWidgetVisible (← decStr v1) (← decBool v2))
        else none
      | _ => none
    else if tg = tagSetWidgetStyle then
      match rest with
      | [(k1, v1), (k2, v2)] =>
        if k1 = keyId ∧ k2 = keyStyleJson then do
          pure (.setWidgetStyle (← decStr v1) (← decStr v2))
        else none
      | _ => none
    else if tg = tagSetStyleProperty then
      match rest with
      | [(k1, v1), (k2, v2), (k3, v3)] =>
        if k1 = keyId ∧ k2 = keyProperty ∧ k3 = keyValue then do
          pure (.setStyleProperty (← decStr v1) (← decStr v2) (← decStr v3))
        else none
      | _ => none
    else if tg = tagSetWidgetValue then
      match rest with
      | [(k1, v1), (k2, v2)] =>
        if k1 = keyId ∧ k2 = keyValue then do
          pure (.setWidgetValue (← decStr v1) (← decF64 v2))
        else none
      | _ => none
    else if tg = tagSetWidgetChecked then
      match rest with
      | [(k1, v1), (k2, v2)] =>
        if k1 = keyId ∧ k2 = keyChecked then do
          pure (.setWidgetChecked (← decStr v1) (← decBool v2))
        else none
      | _ => none
    else if tg = tagResizeWindow then
      match rest with
      | [(k1, v1), (k2, v2)] =>
        if k1 = keyWidth ∧ k2 = keyHeight then do
          pure (.resizeWindow (← decUint v1) (← decUint v2))
        else none
      | _ => none
    else if tg = tagCloseWindow then
      match rest with
      | [] => some .closeWindow
      | _ => none
    else if tg = tagExitApp then
      match rest with
      | [] => some .exitApp
      | _ => none
    else if tg = tagSetImageData then
      match rest with
      | [(k1, v1), (k2, v2)] =>
        if k1 = keyId ∧ k2 = keyData then do
          pure (.setImageData (← decStr v1) (← decBin v2))
        else none
      | _ => none
    else none
  | _ => none

/-- Rebuild a UI event from its decoded nested map. -/
def pairsToUiEvent (ps : List (List Nat × Scalar)) : Option UiEventWire :=
  match ps with
  | [(k0, .sstr tg), (k1, .sstr a), (k2, .sstr b), (k3, .sbool fatal)] =>
    if k0 = keyType ∧ tg = tagRuntimeError ∧ k1 = keySource ∧ k2 = keyMessage ∧
        k3 = keyFatal then
      some (.runtimeError a b fatal)
    else none
  | [(k0, .sstr tg), (k1, .sstr a), (k2, .sstr b)] =>
    if k0 = keyType ∧ tg = tagWidgetAction ∧ k1 = keyWidgetId ∧ k2 = keyAction then
      some (.widgetAction a b)
    else none
  | _ => none

/-- Rebuild a host event from its decoded envelope map. -/
def pairsToRustMsg (ps : List (List Nat × MVal)) : Option RustToJsMessage :=
  match ps with
  | [(k0, .mscalar (.sstr tg))] =>
    if k0 = keyType ∧ tg = tagShutdown then some .shutdown else none
  | [(k0, .mscalar (.sstr tg)), (k1, .mmap qs)] =>
    if k0 = keyType ∧ tg = tagUiEvent ∧ k1 = keyEvent then do
      pure (.uiEvent (← pairsToUiEvent qs))
    else none
  | _ => none

/-- Serialize one client command (the `rmp_serde::to_vec_named` stage). -/
def encJsMsg (m : JsToRustMessage) : List Nat := encTopMap (jsMsgPairs m)

/-- Deserialize one client command (the `rmp_serde::from_slice` stage). -/
def decJsMsg (bytes : List Nat) : Option JsToRustMessage :=
  match parseTopMap bytes with
  | some (ps, []) => pairsToJsMsg ps
  | _ => none

/-- Serialize one host event. -/
def encRustMsg (m : RustToJsMessage) : List Nat := encTopMap (rustMsgPairs m)

/-- Deserialize one host event. -/
def decRustMsg (bytes : List Nat) : Option RustToJsMessage :=
  match parseTopMap bytes with
  | some (ps, []) => pairsToRustMsg ps
  | _ => none

/-! ## Frame layer

`write_msgpack_frame` / `read_msgpack_frame`, `src/ipc/msgpack.rs:72-109`. -/

/-- One observable act of `write_msgpack_frame` on its writer. -/
inductive WriteEvent
  | chunk (bytes : List Nat)
  | flushed
  deriving DecidableEq

/-- The writer trace of `write_msgpack_frame` (`src/ipc/msgpack.rs:72-89`)
for an already-encoded `payload`: `write_all` of the 4-byte little-endian
`payload.len() as u32`, `write_all` of the payload, then `flush`. -/
def writeMsgpackFrameEvents (payload : List Nat) : List WriteEvent :=
  [.chunk (leBytes 4 (payload.length % 2 ^ 32)), .chunk payload, .flushed]

/-- The bytes `write_msgpack_frame` puts on the transport. -/
def writeMsgpackFrameBytes (payload : List Nat) : List Nat :=
  leBytes 4 (payload.length % 2 ^ 32) ++ payload

/-- The declared length of a written frame: the value of its 4-byte prefix. -/
def frameDeclaredLen (frame : List Nat) : Nat := leVal (frame.take 4)

/-- The two `io::ErrorKind`s `read_msgpack_frame` can produce:
`UnexpectedEof` from `read_exact`, `InvalidData` from the decode stage. -/
inductive IoErrKind
  | unexpectedEof
  | invalidData
  deriving DecidableEq

/-- `read_msgpack_frame` (`src/ipc/msgpack.rs:91-109`) over a byte stream:
read exactly 4 length bytes, then exactly that many payload bytes, then
decode.  Returns the result together with the not-yet-consumed stream. -/
def readMsgpackFrame {α : Type} (dec : List Nat → Option α) (input : List Nat) :
    Except IoErrKind α × List Nat :=
  match readExactBytes input 4 with
  | none => (.error .unexpectedEof, input)
  | some (lenB, rest) =>
    match readExactBytes rest (leVal lenB) with
    | none => (.error .unexpectedEof, rest)
    | some (payload, rest2) =>
      match dec payload with
      | some v => (.ok v, rest2)
      | none => (.error .invalidData, rest2)

/-! ## The socket read loop

One iteration of the read-thread loop of `run_socket_server`
(`src/ipc/server.rs:322-349`). -/

/-- Outcome of one read-loop iteration: a decoded message is handed on and
the loop continues; the loop breaks (thread exits, nothing is reported); or
a `RuntimeErrorReport` is queued and the loop continues. -/
inductive ReadStep (α : Type)
  | delivered (m : α) (rest : List Nat)
  | disconnect
  | reportDecodeErr (source : String) (fatal : Bool) (rest : List Nat)
  deriving DecidableEq

/-- One iteration of the read thread: `Ok` sends the command on, an
`UnexpectedEof` error breaks the loop, any other error is reported as a
non-fatal `"socket-read"` runtime error and the loop continues. -/
def readThreadStep {α : Type} (dec : List Nat → Option α) (input : List Nat) :
    ReadStep α :=
  match readMsgpackFrame dec input with
  | (.ok m, rest) => .delivered m rest
  | (.error .unexpectedEof, _) => .disconnect
  | (.error .invalidData, rest) => .reportDecodeErr "socket-read" false rest

/-! ## Codec round-trip lemmas -/

theorem readExactBytes_of_append (bs r : List Nat) (k : Nat) (h : bs.length = k) :
    readExactBytes (bs ++ r) k = some (bs, r) := by
  subst h
  unfold readExactBytes
  rw [if_pos (by simp)]
  simp [List.take_left, List.drop_left]

theorem pow_256_four : (2 : Nat) ^ 32 = 256 ^ 4 := by norm_num

theorem pow_256_eight : (2 : Nat) ^ 64 = 256 ^ 8 := by norm_num

theorem parseScalar_encScalar (v : Scalar) (r : List Nat) (h : wfScalar v = true) :
    parseScalar (encScalar v ++ r) = some (v, r) := by
  cases v with
  | snil => rfl
  | sbool b => cases b <;> rfl
  | suint n =>
    have hn : n < 256 ^ 8 := by
      rw [← pow_256_eight]
      simpa [wfScalar] using h
    simp [encScalar, parseScalar, readExactBytes_of_append _ _ 8 (beBytes_length 8 n),
      beVal_beBytes 8 n hn]
  | sf64 bits =>
    have hn : bits < 256 ^ 8 := by
      rw [← pow_256_eight]
      simpa [wfScalar] using h
    simp [encScalar, parseScalar, readExactBytes_of_append _ _ 8 (beBytes_length 8 bits),
      beVal_beBytes 8 bits hn]
  | sstr s =>
    have hn : s.length < 256 ^ 4 := by
      rw [← pow_256_four]
      simpa [wfScalar] using h
    simp [encScalar, parseScalar, List.append_assoc,
      readExactBytes_of_append _ _ 4 (beBytes_length 4 s.length),
      beVal_beBytes 4 s.length hn, readExactBytes_of_append s r s.length rfl]
  | sbin b =>
    have hn : b.length < 256 ^ 4 := by
      rw [← pow_256_four]
      simpa [wfScalar] using h
    simp [encScalar, parseScalar, List.append_assoc,
      readExactBytes_of_append _ _ 4 (beBytes_length 4 b.length),
      beVal_beBytes 4 b.length hn, readExactBytes_of_append b r b.length rfl]

theorem parseEntriesS_encEntriesS (ps : List (List Nat × Scalar)) (r : List Nat)
    (h : ps.all (fun p => decide (p.1.length < 2 ^ 32) && wfScalar p.2) = true) :
    parseEntriesS ps.length (encEntriesS ps ++ r) = some (ps, r) := by
  induction ps generalizing r with
  | nil => rfl
  | cons p ps ih =>
    obtain ⟨k, v⟩ := p
    simp only [List.all_cons, Bool.and_eq_true, decide_eq_true_eq] at h
    obtain ⟨⟨hk, hv⟩, hps⟩ := h
    have hkey : parseScalar (encScalar (.sstr k) ++ (encScalar v ++ (encEntriesS ps ++ r))) =
        some (.sstr k, encScalar v ++ (encEntriesS ps ++ r)) :=
      parseScalar_encScalar (.sstr k) _ (by simpa [wfScalar] using hk)
    simp [encEntriesS, parseEntriesS, List.append_assoc, hkey,
      parseScalar_encScalar v _ hv, ih _ hps]

theorem parseMVal_encMVal (v : MVal) (r : List Nat) (h : wfMVal v = true) :
    parseMVal (encMVal v ++ r) = some (v, r) := by
  cases v with
  | mscalar s =>
    have hp := parseScalar_encScalar s r (by simpa [wfMVal] using h)
    cases s with
    | snil => rfl
    | sbool b => cases b <;> rfl
    | suint n => simp [encMVal, encScalar, parseMVal] at hp ⊢; rw [hp]; rfl
    | sf64 bits => simp [encMVal, encScalar, parseMVal] at hp ⊢; rw [hp]; rfl
    | sstr s => simp [encMVal, encScalar, parseMVal] at hp ⊢; rw [hp]; rfl
    | sbin b => simp [encMVal, encScalar, parseMVal] at hp ⊢; rw [hp]; rfl
  | mmap ps =>
    simp only [wfMVal, Bool.and_eq_true, decide_eq_true_eq] at h
    obtain ⟨hlen, hall⟩ := h
    have hcount : ps.length < 256 ^ 4 := by rw [← pow_256_four]; exact hlen
    simp [encMVal, parseMVal, List.append_assoc,
      readExactBytes_of_append _ _ 4 (beBytes_length 4 ps.length),
      beVal_beBytes 4 ps.length hcount, parseEntriesS_encEntriesS ps r hall]

theorem parseEntriesV_encEntriesV (ps : List (List Nat × MVal)) (r : List Nat)
    (h : ps.all (fun p => decide (p.1.length < 2 ^ 32) && wfMVal p.2) = true) :
    parseEntriesV ps.length (encEntriesV ps ++ r) = some (ps, r) := by
  induction ps generalizing r with
  | nil => rfl
  | cons p ps ih =>
    obtain ⟨k, v⟩ := p
    simp only [List.all_cons, Bool.and_eq_true, decide_eq_true_eq] at h
    obtain ⟨⟨hk, hv⟩, hps⟩ := h
    have hkey : parseScalar (encScalar (.sstr k) ++ (encMVal v ++ (encEntriesV ps ++ r))) =
        some (.sstr k, encMVal v ++ (encEntriesV ps ++ r)) :=
      parseScalar_encScalar (.sstr k) _ (by simpa [wfScalar] using hk)
    simp [encEntriesV, parseEntriesV, List.append_assoc, hkey,
      parseMVal_encMVal v _ hv, ih _ hps]

theorem parseTopMap_encTopMap (ps : List (List Nat × MVal)) (r : List Nat)
    (h : wfTopMap ps = true) :
    parseTopMap (encTopMap ps ++ r) = some (ps, r) := by
  simp only [wfTopMap, Bool.and_eq_true, decide_eq_true_eq] at h
  obtain ⟨hlen, hall⟩ := h
  have hcount : ps.length < 256 ^ 4 := by rw [← pow_256_four]; exact hlen
  simp [encTopMap, parseTopMap, List.append_assoc,
    readExactBytes_of_append _ _ 4 (beBytes_length 4 ps.length),
    beVal_beBytes 4 ps.length hcount, parseEntriesV_encEntriesV ps r hall]

theorem decOptStr_optStrVal (o : Option (List Nat)) :
    decOptStr (.mscalar (optStrVal o)) = some o := by
  cases o <;> rfl

theorem decOptBin_optBinVal (o : Option (List Nat)) :
    decOptBin (.mscalar (optBinVal o)) = some o := by
  cases o <;> rfl

theorem pairsToJsMsg_jsMsgPairs (m : JsToRustMessage) :
    pairsToJsMsg (jsMsgPairs m) = some m := by
  cases m <;>
    simp [jsMsgPairs, pairsToJsMsg, decStr, decBool, decUint, decF64, decBin,
      decOptStr_optStrVal, decOptBin_optBinVal, keyType, keyTitle, keyId, keyKind,
      keyParentId, keyText, keyStyleJson, keyWidgetParamsJson, keyData, keyVisible,
      keyProperty, keyValue, keyChecked, keyWidth, keyHeight, tagSetTitle,
      tagCreateWidget, tagRemoveWidget, tagSetWidgetText, tagSetWidgetVisible,
      tagSetWidgetStyle, tagSetStyleProperty, tagSetWidgetValue, tagSetWidgetChecked,
      tagResizeWindow, tagCloseWindow, tagExitApp, tagSetImageData]

theorem pairsToUiEvent_uiEventPairs (e : UiEventWire) :
    pairsToUiEvent (uiEventPairs e) = some e := by
  cases e <;>
    simp [uiEventPairs, pairsToUiEvent, keyType, keySource, keyMessage, keyFatal,
      keyWidgetId, keyAction, tagRuntimeError, tagWidgetAction]

theorem pairsToRustMsg_rustMsgPairs (m : RustToJsMessage) :
    pairsToRustMsg (rustMsgPairs m) = some m := by
  cases m with
  | uiEvent e =>
    simp [rustMsgPairs, pairsToRustMsg, pairsToUiEvent_uiEventPairs, keyType,
      keyEvent, tagUiEvent]
  | shutdown => rfl

theorem decJsMsg_encJsMsg (m : JsToRustMessage)
    (h : wfTopMap (jsMsgPairs m) = true) : decJsMsg (encJsMsg m) = some m := by
  have hp := parseTopMap_encTopMap (jsMsgPairs m) [] h
  rw [List.append_nil] at hp
  unfold decJsMsg encJsMsg
  rw [hp]
  exact pairsToJsMsg_jsMsgPairs m

theorem decRustMsg_encRustMsg (m : RustToJsMessage)
    (h : wfTopMap (rustMsgPairs m) = true) : decRustMsg (encRustMsg m) = some m := by
  have hp := parseTopMap_encTopMap (rustMsgPairs m) [] h
  rw [List.append_nil] at hp
  unfold decRustMsg encRustMsg
  rw [hp]
  exact pairsToRustMsg_rustMsgPairs m

theorem readExactBytes_all (l : List Nat) : readExactBytes l l.length = some (l, []) := by
  simp [readExactBytes]

theorem readMsgpackFrame_write {α : Type} (dec : List Nat → Option α)
    (payload : List Nat) (v : α) (hlen : payload.length < 2 ^ 32)
    (hdec : dec payload = some v) :
    readMsgpackFrame dec (writeMsgpackFrameBytes payload) = (.ok v, []) := by
  have hmod : payload.length % 2 ^ 32 = payload.length := Nat.mod_eq_of_lt hlen
  have hval : leVal (leBytes 4 (payload.length % 2 ^ 32)) = payload.length := by
    rw [hmod, leVal_leBytes 4 _ (by rw [← pow_256_four]; exact hlen)]
  unfold writeMsgpackFrameBytes readMsgpackFrame
  rw [readExactBytes_of_append _ _ 4 (leBytes_length 4 _)]
  simp only [hval, readExactBytes_all, hdec]

/-- Modelled from the spec (the framing-failure contract, §4.1 as corrected):
how one read-loop iteration must behave, stated directly on the input bytes.
End of stream before a complete frame — whether at the frame boundary or
mid-frame — ends the loop as a disconnect with nothing reported; a complete
frame whose payload fails to decode is reported as a non-fatal
`"socket-read"` error and the loop continues; a complete frame that decodes
is delivered and the loop continues. -/
def readThreadStepSpec {α : Type} (dec : List Nat → Option α) (input : List Nat) :
    ReadStep α :=
  if input.length < 4 then .disconnect
  else
    let len := leVal (input.take 4)
    if input.length < 4 + len then .disconnect
    else
      match dec ((input.drop 4).take len) with
      | some m => .delivered m ((input.drop 4).drop len)
      | none => .reportDecodeErr "socket-read" false ((input.drop 4).drop len)

theorem readThreadStep_eq_spec {α : Type} (dec : List Nat → Option α)
    (input : List Nat) : readThreadStep dec input = readThreadStepSpec dec input := by
  by_cases h4 : 4 ≤ input.length
  · have h4' : ¬input.length < 4 := by omega
    by_cases hm : leVal (input.take 4) ≤ input.length - 4
    · have hm' : ¬input.length < 4 + leVal (input.take 4) := by omega
      cases hd : dec ((input.drop 4).take (leVal (input.take 4))) <;>
        simp [readThreadStep, readThreadStepSpec, readMsgpackFrame, readExactBytes,
          h4, h4', hm, hm', hd]
    · have hm' : input.length < 4 + leVal (input.take 4) := by omega
      simp [readThreadStep, readThreadStepSpec, readMsgpackFrame, readExactBytes,
        h4, h4', hm, hm']
  · have h4' : input.length < 4 := by omega
    simp [readThreadStep, readThreadStepSpec, readMsgpackFrame, readExactBytes,
      h4, h4']

/-! ## The widget registry

`WidgetManager` from `src/ui/widget_manager.rs`.  The two Rust `HashMap`s are
association lists in insertion order; since this file only proves statements
up to permutation or via key lookup, the hash map's arbitrary iteration order
is not load-bearing.  `HashMap::remove`/`insert` are embedded as key-filter /
replace-or-append, which agree with the Rust maps whenever keys are nodup
(they are, in every state this file builds). -/

/-- Closed widget-kind tag.  Its defining module (`src/ipc/commands.rs`) is
not among the sources; the variants are reconstructed from
`parse_widget_kind` (`src/ipc/server.rs:63-85`) and the dispatch matches of
`src/ui/handler.rs`. -/
inductive WidgetKind
  | label
  | button
  | svg
  | textInput
  | textArea
  | checkbox
  | container
  | flex
  | sizedBox
  | progressBar
  | spinner
  | slider
  | image
  | prose
  | grid
  | zstack
  | portal
  | hoverable
  | custom (name : String)
  deriving DecidableEq

/-- `WidgetInfo` (`src/ui/widget_manager.rs:11-21`). -/
structure WidgetInfo where
  widget_id : Nat
  kind : WidgetKind
  parent_id : Option String
  child_index : Nat
  deriving DecidableEq

/-- `WidgetManager` (`src/ui/widget_manager.rs:24-29`). -/
structure WidgetManager where
  widgets : List (String × WidgetInfo)
  child_counts : List (String × Nat)
  deriving DecidableEq

/-- The reserved root key. -/
def rootKey : String := "__root__"

/-- `WidgetManager::new` (`src/ui/widget_manager.rs:32-39`). -/
def WidgetManager.new : WidgetManager := ⟨[], [(rootKey, 0)]⟩

/-- Replace-or-append insertion, the association-list `HashMap::insert`. -/
def alInsert (k : String) (v : Nat) (l : List (String × Nat)) : List (String × Nat) :=
  if l.any (fun e => e.1 == k) then l.map (fun e => if e.1 == k then (k, v) else e)
  else l ++ [(k, v)]

/-- `WidgetManager::parent_matches` (`src/ui/widget_manager.rs:41-46`). -/
def parentMatches (info : WidgetInfo) (parentKey : String) : Bool :=
  match info.parent_id with
  | some pid => pid == parentKey
  | none => parentKey == rootKey

/-- `WidgetManager::current_child_count` (`src/ui/widget_manager.rs:48-53`). -/
def currentChildCount (wm : WidgetManager) (parentKey : String) : Nat :=
  (wm.widgets.filter (fun e => parentMatches e.2 parentKey)).length

/-- `WidgetManager::next_child_index` (`src/ui/widget_manager.rs:55-59`):
the returned index is the live child count recomputed from the records; the
`child_counts` entry is updated as a side effect (it is never read back). -/
def nextChildIndex (wm : WidgetManager) (parentKey : String) : Nat × WidgetManager :=
  let idx := currentChildCount wm parentKey
  (idx, { wm with child_counts := alInsert parentKey (idx + 1) wm.child_counts })

/-- The keys of the live records whose `parent_id` is `some pid`, as iterated
by `collect_descendants`' filter (`src/ui/widget_manager.rs:61-72`). -/
def childrenOf (ws : List (String × WidgetInfo)) (pid : String) : List String :=
  (ws.filter (fun e => e.2.parent_id == some pid)).map (fun e => e.1)

/-- `WidgetManager::collect_descendants` (`src/ui/widget_manager.rs:61-78`):
depth-first, child before its own descendants.  The Rust recursion is
unbounded; here it carries fuel.  Whenever the Rust call terminates the
recursion depth is at most the number of records (each record is the child
of exactly one parent key), so fuel `ws.length` computes the same list. -/
def collectDescendants (ws : List (String × WidgetInfo)) : Nat → String → List String
  | 0, _ => []
  | fuel + 1, pid => (childrenOf ws pid).flatMap (fun c => c :: collectDescendants ws fuel c)

/-- The `usize::MAX` sort key for an id that is missing from the map
(`src/ui/widget_manager.rs:93`). -/
def usizeMax : Nat := 2 ^ 64 - 1

/-- The `sort_by_key` key of `recompute_parent_state`: the record's
`child_index`, or `usize::MAX` when the id is unaccountably missing. -/
def sortKeyOf (ws : List (String × WidgetInfo)) (id : String) : Nat :=
  match List.lookup id ws with
  | some info => info.child_index
  | none => usizeMax

/-- Stable insertion into a list sorted by `key` (equal keys keep their
relative order, as Rust's stable `sort_by_key` does). -/
def insertSorted (key : String → Nat) (x : String) : List String → List String
  | [] => [x]
  | y :: ys => if key x < key y then x :: y :: ys else y :: insertSorted key x ys

/-- Stable sort by `key` (insertion sort). -/
def sortByKeyF (key : String → Nat) : List String → List String
  | [] => []
  | x :: xs => insertSorted key x (sortByKeyF key xs)

/-- `WidgetManager::recompute_parent_state` (`src/ui/widget_manager.rs:80-102`):
collect the ids of `parent_key`'s live children, sort them by recorded
`child_index`, write each one's position in the sorted order back as its new
`child_index`, and store the family size in `child_counts`. -/
def recomputeParentState (wm : WidgetManager) (parentKey : String) : WidgetManager :=
  let childIds := (wm.widgets.filter (fun e => parentMatches e.2 parentKey)).map (fun e => e.1)
  let sorted := sortByKeyF (sortKeyOf wm.widgets) childIds
  let ws := wm.widgets.map (fun e =>
    if sorted.contains e.1 then
      (e.1, { e.2 with child_index := sorted.indexOf e.1 })
    else e)
  { widgets := ws, child_counts := alInsert parentKey sorted.length wm.child_counts }

/-- `WidgetManager::remove_widget_subtree` (`src/ui/widget_manager.rs:104-120`):
remove `id` (or return `none`), collect its transitive descendants from the
remaining records, remove them from both maps, drop `id`'s `child_counts`
entry, then recompute the removed record's parent family. -/
def removeWidgetSubtree (wm : WidgetManager) (id : String) :
    WidgetManager × Option WidgetInfo :=
  match List.lookup id wm.widgets with
  | none => (wm, none)
  | some removed =>
    let ws1 := wm.widgets.filter (fun e => e.1 != id)
    let descs := collectDescendants ws1 ws1.length id
    let ws2 := ws1.filter (fun e => !descs.contains e.1)
    let cc2 := (wm.child_counts.filter (fun e => !descs.contains e.1)).filter
      (fun e => e.1 != id)
    let pk := removed.parent_id.getD rootKey
    (recomputeParentState { widgets := ws2, child_counts := cc2 } pk, some removed)

/-! ## The command dispatcher

`handle_client_command` from `src/ui/handler.rs`, embedded as a function from
a command and a registry to the new registry, the list of native-tree
mutations issued (in order), and the list of runtime-error events sent to
the event channel (in order).  `println!`/`eprintln!` logging is not an
event: only `report_runtime_error` (`src/ui/handler.rs:16-24`) emissions are
recorded as diagnostics. -/

/-- The opaque structured style payload.  Its defining module
(`src/ipc/commands.rs`) is absent from the sources and §1 scopes its
contents out; the dispatcher only carries it to the native layer, so it is
embedded as an opaque value type. -/
structure BoxStyle where
  raw : String
  deriving DecidableEq, Inhabited

/-- Rust `{:?}` rendering of a `WidgetKind`. -/
def kindDebugStr : WidgetKind → String
  | .label => "Label"
  | .button => "Button"
  | .svg => "Svg"
  | .textInput => "TextInput"
  | .textArea => "TextArea"
  | .checkbox => "Checkbox"
  | .container => "Container"
  | .flex => "Flex"
  | .sizedBox => "SizedBox"
  | .progressBar => "ProgressBar"
  | .spinner => "Spinner"
  | .slider => "Slider"
  | .image => "Image"
  | .prose => "Prose"
  | .grid => "Grid"
  | .zstack => "ZStack"
  | .portal => "Portal"
  | .hoverable => "Hoverable"
  | .custom name => "Custom(\"" ++ name ++ "\")"

/-- Type-specific construction data (`build_widget_data`,
`src/ipc/server.rs:157-297`); carried opaquely by the dispatcher. -/
inductive WidgetData
  | label
  | button (svg_data : Option String)
  | svg (svg_data : Option String)
  | image (data : List Nat) (object_fit : Option String)
  | flex
  | sizedBox
  | checkbox (checked : Bool)
  | textInput (placeholder : Option String)
  | textArea
  | prose
  | progressBar (progress : Option Nat)
  | spinner
  | slider (sliderMin sliderMax value : Nat) (step : Option Nat)
  | zstack
  | portal
  | grid
  | hoverable
  | custom (name : String)
  deriving DecidableEq

/-- `ClientCommand`.  Its defining module (`src/ipc/commands.rs`) is absent
from the sources; the variants and field types are reconstructed from
`handle_client_message` (`src/ipc/server.rs:87-150`) and the dispatch arms of
`src/ui/handler.rs`.  `f64` values are carried as their bit pattern. -/
inductive ClientCommand
  | setTitle (title : String)
  | createWidget (id : String) (kind : WidgetKind) (parent_id : Option String)
      (text : Option String) (style : Option BoxStyle) (data : Option WidgetData)
  | setWidgetText (id text : String)
  | setWidgetValue (id : String) (value : Nat)
  | setWidgetChecked (id : String) (checked : Bool)
  | setWidgetStyle (id : String) (style : BoxStyle)
  | setStyleProperty (id property value : String)
  | setWidgetVisible (id : String) (visible : Bool)
  | removeWidget (id : String)
  | resizeWindow (width height : Nat)
  | closeWindow
  | exitApp
  | setImageData (id : String) (data : List Nat)
  deriving DecidableEq

/-- A runtime-error event sent over the UI-event channel by
`report_runtime_error` (`src/ui/handler.rs:16-24`). -/
structure Diag where
  source : String
  message : String
  fatal : Bool
  deriving DecidableEq

/-- A mutation issued against the native widget tree or the render root, one
constructor per `render_root.edit_widget…`/`emit_signal` site of
`src/ui/handler.rs`. -/
inductive NativeOp
  | setTitleSignal (title : String)
  | attachNewWidget (id : String)
  | setLabelText (wid : Nat) (text : String)
  | setProseText (wid : Nat) (text : String)
  | setInputText (wid : Nat) (text : String)
  | setSvgSource (wid : Nat) (text : String)
  | setProgress (wid : Nat) (value : Nat)
  | setSliderValue (wid : Nat) (value : Nat)
  | setCheckboxChecked (wid : Nat) (checked : Bool)
  | applyRootFlexStyle (style : BoxStyle)
  | applyLabelStyle (wid : Nat) (style : BoxStyle)
  | applyButtonStyle (wid : Nat) (style : BoxStyle)
  | applySvgStyle (wid : Nat) (style : BoxStyle)
  | applyFlexStyle (wid : Nat) (style : BoxStyle)
  | applyProgressBarStyle (wid : Nat) (style : BoxStyle)
  | applySliderStyle (wid : Nat) (style : BoxStyle)
  | applySizedBoxStyle (wid : Nat) (style : BoxStyle)
  | updateImageData (wid : Nat) (data : List Nat)
  | flexRemoveChildRoot (index : Nat)
  | flexRemoveChild (wid : Nat) (index : Nat)
  | buttonFlexRemoveChild (wid : Nat) (index : Nat)
  | sizedBoxRemoveChild (wid : Nat)
  | zstackRemoveChild (wid : Nat) (index : Nat)
  | resizeSignal (width height : Nat)
  | exitSignal
  deriving DecidableEq

/-- What one dispatched command did: the registry afterwards, the native
mutations issued, and the diagnostics emitted. -/
structure DispatchResult where
  wm : WidgetManager
  ops : List NativeOp
  diags : List Diag
  deriving DecidableEq

/-- A non-fatal `"ui-handler"` diagnostic. -/
def uiDiag (message : String) : Diag := ⟨"ui-handler", message, false⟩

/-- `add_to_parent` (`src/ui/widgets/utils.rs:13-108`), reduced to its
decision: `true` when the new widget could be attached.  `parent_id = none`
attaches to the root flex; otherwise the parent record must exist and its
kind must accept a child (Flex/Container/Button/SizedBox/ZStack always,
Hoverable only while it has no child, every other kind never). -/
def addToParentOk (wm : WidgetManager) (parent_id : Option String) : Bool :=
  match parent_id with
  | none => true
  | some pk =>
    match List.lookup pk wm.widgets with
    | some parentInfo =>
      match parentInfo.kind with
      | .flex | .container | .button | .sizedBox | .zstack => true
      | .hoverable =>
        (wm.widgets.filter (fun e => e.2.parent_id == some pk)).length == 0
      | _ => false
    | none => false

/-- Modelled from the spec: `create_and_add_widget` (`src/ui/creation.rs`)
is not among the sources.  Per §4.4 Create and the per-kind `create` helpers
under `src/ui/widgets/` that are present: compute
`child_index = next_child_index(parent_key)`, attempt the native attach
(legality per `add_to_parent`), and only on success insert the record; on
failure emit one non-fatal diagnostic naming the parent.  The opaque native
handle is modelled as `0`. -/
def createAndAddWidget (wm : WidgetManager) (id : String) (kind : WidgetKind)
    (parent_id : Option String) : DispatchResult :=
  let parentKey := parent_id.getD rootKey
  let p := nextChildIndex wm parentKey
  if addToParentOk p.2 parent_id then
    { wm := { p.2 with
        widgets := p.2.widgets ++ [(id, ⟨0, kind, parent_id, p.1⟩)] },
      ops := [.attachNewWidget id], diags := [] }
  else
    { wm := p.2, ops := [],
      diags := [uiDiag ("Cannot create widget '" ++ id ++ "' under parent '" ++
        parentKey ++ "'")] }

/-- The `SetWidgetStyle` arm of `handle_client_command`
(`src/ui/handler.rs:192-284`), shared verbatim by the `SetStyleProperty` arm
through its re-dispatch (`src/ui/handler.rs:334-342`). -/
def applySetWidgetStyle (wm : WidgetManager) (id : String) (style : BoxStyle) :
    DispatchResult :=
  if id == rootKey then
    { wm := wm, ops := [.applyRootFlexStyle style], diags := [] }
  else
    match List.lookup id wm.widgets with
    | some info =>
      match info.kind with
      | .label =>
        { wm := wm, ops := [.applyLabelStyle info.widget_id style], diags := [] }
      | .button =>
        { wm := wm, ops := [.applyButtonStyle info.widget_id style], diags := [] }
      | .svg =>
        { wm := wm, ops := [.applySvgStyle info.widget_id style], diags := [] }
      | .flex =>
        { wm := wm, ops := [.applyFlexStyle info.widget_id style], diags := [] }
      | .container =>
        { wm := wm, ops := [.applyFlexStyle info.widget_id style], diags := [] }
      | .progressBar =>
        { wm := wm, ops := [.applyProgressBarStyle info.widget_id style], diags := [] }
      | .slider =>
        { wm := wm, ops := [.applySliderStyle info.widget_id style], diags := [] }
      | .sizedBox =>
        { wm := wm, ops := [.applySizedBoxStyle info.widget_id style], diags := [] }
      | .image =>
        -- src/ui/handler.rs:258-262: box styles on the inner image are
        -- silently ignored to prevent log spam; no edit, no diagnostic.
        { wm := wm, ops := [], diags := [] }
      | _ =>
        { wm := wm, ops := [],
          diags := [uiDiag ("SetWidgetStyle was not fully supported for " ++
            kindDebugStr info.kind ++ " widget '" ++ id ++ "'")] }
    | none =>
      { wm := wm, ops := [],
        diags := [uiDiag ("Widget '" ++ id ++ "' not found for SetWidgetStyle")] }

/-- The `RemoveWidget` arm of `handle_client_command`
(`src/ui/handler.rs:355-471`). -/
def removeWidgetCommand (wm : WidgetManager) (id : String) : DispatchResult :=
  match List.lookup id wm.widgets with
  | some info =>
    let parentKey := info.parent_id.getD rootKey
    let childIndex := info.child_index
    let siblingCount := currentChildCount wm parentKey
    if siblingCount == 0 then
      -- src/ui/handler.rs:361-376: no siblings, sync metadata only.
      { wm := (removeWidgetSubtree wm id).1, ops := [],
        diags := [uiDiag ("RemoveWidget for '" ++ id ++
          "' found no siblings under parent '" ++ parentKey ++
          "'; metadata was synced only")] }
    else
      let staleDiags : List Diag :=
        if childIndex < siblingCount then []
        else
          [uiDiag ("RemoveWidget for '" ++ id ++ "' had stale index " ++
            toString childIndex ++ "; clamped within parent '" ++ parentKey ++ "'")]
      let safeIndex := if childIndex < siblingCount then childIndex
        else siblingCount - 1
      let removal : List NativeOp × List Diag :=
        if parentKey == rootKey then ([.flexRemoveChildRoot safeIndex], [])
        else
          match List.lookup parentKey wm.widgets with
          | some parentInfo =>
            match parentInfo.kind with
            | .flex => ([.flexRemoveChild parentInfo.widget_id safeIndex], [])
            | .container => ([.flexRemoveChild parentInfo.widget_id safeIndex], [])
            | .button => ([.buttonFlexRemoveChild parentInfo.widget_id safeIndex], [])
            | .sizedBox => ([.sizedBoxRemoveChild parentInfo.widget_id], [])
            | .zstack => ([.zstackRemoveChild parentInfo.widget_id safeIndex], [])
            | _ =>
              ([], [uiDiag ("Parent '" ++ parentKey ++ "' of kind " ++
                kindDebugStr parentInfo.kind ++
                " does not support child removal for '" ++ id ++ "'")])
          | none =>
            ([], [uiDiag ("Parent widget '" ++ parentKey ++
              "' not found for RemoveWidget '" ++ id ++
              "'; metadata was synced only")])
      { wm := (removeWidgetSubtree wm id).1, ops := removal.1,
        diags := staleDiags ++ removal.2 }
  | none =>
    -- src/ui/handler.rs:463-470: not found is only logged to stdout
    -- ("likely implicitly removed by parent"); no event is emitted.
    { wm := wm, ops := [], diags := [] }

/-- `handle_client_command` (`src/ui/handler.rs:27-516`).  `buildStyle`
stands for the single-property payload construction of
`src/ui/handler.rs:295-333` (an f64/JSON parse chain over external crates);
the arm builds `style = buildStyle property value` and re-enters the
`SetWidgetStyle` path with it, exactly as the source re-dispatches. -/
def handleClientCommand (buildStyle : String → String → BoxStyle)
    (cmd : ClientCommand) (wm : WidgetManager) : DispatchResult :=
  match cmd with
  | .setTitle title => { wm := wm, ops := [.setTitleSignal title], diags := [] }
  | .createWidget id kind parent_id _text _style _data =>
    createAndAddWidget wm id kind parent_id
  | .setWidgetText id text =>
    match List.lookup id wm.widgets with
    | some info =>
      match info.kind with
      | .label => { wm := wm, ops := [.setLabelText info.widget_id text], diags := [] }
      | .prose => { wm := wm, ops := [.setProseText info.widget_id text], diags := [] }
      | .textInput =>
        { wm := wm, ops := [.setInputText info.widget_id text], diags := [] }
      | .button =>
        { wm := wm, ops := [],
          diags := [uiDiag
            "SetWidgetText on Button is not supported. Use a child label widget instead."] }
      | .svg => { wm := wm, ops := [.setSvgSource info.widget_id text], diags := [] }
      | _ =>
        { wm := wm, ops := [],
          diags := [uiDiag ("SetWidgetText on " ++ kindDebugStr info.kind ++
            " is not supported for widget '" ++ id ++ "'")] }
    | none =>
      { wm := wm, ops := [],
        diags := [uiDiag ("Widget '" ++ id ++ "' not found for SetWidgetText")] }
  | .setWidgetValue id value =>
    match List.lookup id wm.widgets with
    | some info =>
      match info.kind with
      | .progressBar =>
        { wm := wm, ops := [.setProgress info.widget_id value], diags := [] }
      | .slider =>
        { wm := wm, ops := [.setSliderValue info.widget_id value], diags := [] }
      | _ =>
        { wm := wm, ops := [],
          diags := [uiDiag ("SetWidgetValue on " ++ kindDebugStr info.kind ++
            " is not supported for widget '" ++ id ++ "'")] }
    | none =>
      { wm := wm, ops := [],
        diags := [uiDiag ("Widget '" ++ id ++ "' not found for SetWidgetValue")] }
  | .setWidgetChecked id checked =>
    match List.lookup id wm.widgets with
    | some info =>
      match info.kind with
      | .checkbox =>
        { wm := wm, ops := [.setCheckboxChecked info.widget_id checked], diags := [] }
      | _ =>
        { wm := wm, ops := [],
          diags := [uiDiag ("SetWidgetChecked on " ++ kindDebugStr info.kind ++
            " is not supported for widget '" ++ id ++ "'")] }
    | none =>
      { wm := wm, ops := [],
        diags := [uiDiag ("Widget '" ++ id ++ "' not found for SetWidgetChecked")] }
  | .setWidgetStyle id style => applySetWidgetStyle wm id style
  | .setStyleProperty id property value =>
    applySetWidgetStyle wm id (buildStyle property value)
  | .setWidgetVisible id visible =>
    { wm := wm, ops := [],
      diags := [uiDiag ("SetWidgetVisible is not implemented for widget '" ++ id ++
        "' (requested visible=" ++ (cond visible "true" "false") ++ ")")] }
  | .removeWidget id => removeWidgetCommand wm id
  | .resizeWindow width height =>
    { wm := wm, ops := [.resizeSignal width height], diags := [] }
  | .closeWindow => { wm := wm, ops := [.exitSignal], diags := [] }
  | .exitApp => { wm := wm, ops := [.exitSignal], diags := [] }
  | .setImageData id data =>
    match List.lookup id wm.widgets with
    | some info =>
      match info.kind with
      | .image =>
        { wm := wm, ops := [.updateImageData info.widget_id data], diags := [] }
      | _ =>
        { wm := wm, ops := [],
          diags := [uiDiag ("SetImageData on " ++ kindDebugStr info.kind ++
            " is not supported for widget '" ++ id ++ "'")] }
    | none =>
      { wm := wm, ops := [],
        diags := [uiDiag ("Widget '" ++ id ++ "' not found for SetImageData")] }

/-! ## The coexisting counter-based registry variant

`WidgetManager` from `src/ui_thread/handler.rs:43-66`, whose
`next_child_index` reads and bumps a stored per-parent counter instead of
recounting live records. -/

/-- The `src/ui_thread/handler.rs` registry state. -/
structure WidgetManagerC where
  widgets : List (String × WidgetInfo)
  child_counts : List (String × Nat)
  deriving DecidableEq

/-- `WidgetManager::new` (`src/ui_thread/handler.rs:50-57`). -/
def WidgetManagerC.new : WidgetManagerC := ⟨[], [(rootKey, 0)]⟩

/-- The counter-variant `WidgetManager::next_child_index`
(`src/ui_thread/handler.rs:59-64`): `child_counts.entry(key).or_insert(0)`,
return the stored value, store value + 1. -/
def nextChildIndexCounter (wm : WidgetManagerC) (parentKey : String) :
    Nat × WidgetManagerC :=
  let idx := (List.lookup parentKey wm.child_counts).getD 0
  (idx, { wm with child_counts := alInsert parentKey (idx + 1) wm.child_counts })

/-- The live child count of the counter-variant registry, recomputed from its
records with the same parent-matching rule (`parent_id`, root for `None`). -/
def currentChildCountC (wm : WidgetManagerC) (parentKey : String) : Nat :=
  (wm.widgets.filter (fun e => parentMatches e.2 parentKey)).length

/-- `add_to_parent` of the counter-variant module
(`src/ui_thread/handler.rs:230-290`), reduced to its decision: root always
attaches; otherwise the parent record must exist with kind
Flex/Container/SizedBox/ZStack. -/
def addToParentOkC (wm : WidgetManagerC) (parent_id : Option String) : Bool :=
  match parent_id with
  | none => true
  | some pk =>
    match List.lookup pk wm.widgets with
    | some parentInfo =>
      match parentInfo.kind with
      | .flex | .container | .sizedBox | .zstack => true
      | _ => false
    | none => false

/-- The registry effect of the counter-variant `CreateWidget` arm
(`src/ui_thread/handler.rs:320-470`): `next_child_index` is bumped first;
the record is inserted only when `add_to_parent` succeeded (container kinds
additionally get a zero `child_counts` entry). -/
def uiThreadCreateWidget (wm : WidgetManagerC) (id : String) (kind : WidgetKind)
    (parent_id : Option String) : WidgetManagerC :=
  let parentKey := parent_id.getD rootKey
  let p := nextChildIndexCounter wm parentKey
  if addToParentOkC p.2 parent_id then
    let counts := match kind with
      | .flex | .container => alInsert id 0 p.2.child_counts
      | _ => p.2.child_counts
    { widgets := p.2.widgets ++ [(id, ⟨0, kind, parent_id, p.1⟩)],
      child_counts := counts }
  else p.2

/-! ## Registry lemmas -/

theorem lookup_mem {α : Type} [BEq α] [LawfulBEq α] {β : Type} (l : List (α × β))
    (k : α) (v : β) (h : List.lookup k l = some v) : (k, v) ∈ l := by
  induction l with
  | nil => simp [List.lookup] at h
  | cons e rest ih =>
    cases e with
    | mk a b =>
      rw [List.lookup] at h
      by_cases he : k == a
      · have hk : k = a := eq_of_beq he
        simp only [he, if_pos] at h
        simp only [Option.some.injEq] at h
        subst hk
        subst h
        exact List.mem_cons_self _ _
      · simp only [he, Bool.false_eq_true, if_neg] at h
        exact List.mem_cons_of_mem _ (ih h)

theorem lookup_eq_none_iff {β : Type} (l : List (String × β)) (k : String) :
    List.lookup k l = none ↔ ∀ e ∈ l, e.1 ≠ k := by
  induction l with
  | nil => simp [List.lookup]
  | cons e rest ih =>
    rw [List.lookup]
    by_cases he : k == e.1
    · have hk : e.1 = k := (eq_of_beq he).symm
      simp only [he, if_pos]
      constructor
      · intro h
        exact absurd h (by simp)
      · intro h
        exact absurd hk (h e (List.mem_cons_self _ _))
    · have hne : e.1 ≠ k := fun h => he (by simp [h])
      simp only [he, Bool.false_eq_true, if_neg, ih]
      constructor
      · intro h e2 he2
        rcases List.mem_cons.mp he2 with rfl | hmem
        · exact hne
        · exact h e2 hmem
      · intro h e2 he2
        exact h e2 (List.mem_cons_of_mem _ he2)

theorem lookup_filter_self {β : Type} (l : List (String × β)) (k : String) :
    List.lookup k (l.filter (fun e => e.1 != k)) = none := by
  rw [lookup_eq_none_iff]
  intro e he
  have := List.of_mem_filter he
  simpa [bne_iff_ne] using this

/-- The keys of a registry's records. -/
def regKeys (ws : List (String × WidgetInfo)) : List String := ws.map (fun e => e.1)

/-- The live records of `parentKey`'s family, in registry order. -/
def famEntries (ws : List (String × WidgetInfo)) (p : String) :
    List (String × WidgetInfo) :=
  ws.filter (fun e => parentMatches e.2 p)

/-- The `child_index` values of `parentKey`'s live children, in registry
order: the object of the contiguity invariant. -/
def childIndices (wm : WidgetManager) (p : String) : List Nat :=
  (famEntries wm.widgets p).map (fun e => e.2.child_index)

theorem parentMatches_unique (info : WidgetInfo) (p q : String)
    (hp : parentMatches info p = true) (hq : parentMatches info q = true) : p = q := by
  unfold parentMatches at hp hq
  cases h : info.parent_id with
  | some pid =>
    rw [h] at hp hq
    exact (eq_of_beq hp).symm.trans (eq_of_beq hq)
  | none =>
    rw [h] at hp hq
    exact (eq_of_beq hp).trans (eq_of_beq hq).symm

theorem entry_unique (ws : List (String × WidgetInfo))
    (hnd : (regKeys ws).Nodup) (k : String) (v1 v2 : WidgetInfo)
    (h1 : (k, v1) ∈ ws) (h2 : (k, v2) ∈ ws) : v1 = v2 := by
  induction ws with
  | nil => simp at h1
  | cons e rest ih =>
    simp only [regKeys, List.map_cons, List.nodup_cons] at hnd
    rcases List.mem_cons.mp h1 with rfl | hm1
    · rcases List.mem_cons.mp h2 with h | hm2
      · exact (congrArg Prod.snd h).symm
      · exact absurd (List.mem_map.mpr ⟨(k, v2), hm2, rfl⟩) hnd.1
    · rcases List.mem_cons.mp h2 with rfl | hm2
      · exact absurd (List.mem_map.mpr ⟨(k, v1), hm1, rfl⟩) hnd.1
      · exact ih hnd.2 hm1 hm2

theorem insertSorted_perm (key : String → Nat) (x : String) (l : List String) :
    (insertSorted key x l).Perm (x :: l) := by
  induction l with
  | nil => simp [insertSorted]
  | cons y ys ih =>
    unfold insertSorted
    by_cases h : key x < key y
    · simp [h]
    · simp only [h, if_neg]
      exact ((ih).cons y).trans (List.Perm.swap x y ys)

theorem sortByKeyF_perm (key : String → Nat) (l : List String) :
    (sortByKeyF key l).Perm l := by
  induction l with
  | nil => simp [sortByKeyF]
  | cons x xs ih =>
    exact (insertSorted_perm key x (sortByKeyF key xs)).trans (ih.cons x)

theorem indexOf_map_self (s : List String) (hnd : s.Nodup) :
    s.map (fun x => s.indexOf x) = List.range s.length := by
  induction s with
  | nil => simp
  | cons a rest ih =>
    simp only [List.nodup_cons] at hnd
    simp only [List.map_cons, List.indexOf_cons_self, List.length_cons,
      List.range_succ_eq_map]
    congr 1
    have : rest.map (fun x => (a :: rest).indexOf x) =
        rest.map (fun x => (rest.indexOf x) + 1) := by
      apply List.map_congr_left
      intro x hx
      have hne : a ≠ x := fun h => hnd.1 (h ▸ hx)
      rw [List.indexOf_cons_ne _ hne]
    rw [this, ← ih hnd.2, List.map_map]
    rfl

theorem map_indexOf_perm_range (s l : List String) (hnd : s.Nodup)
    (hperm : l.Perm s) : (l.map (fun x => s.indexOf x)).Perm (List.range s.length) := by
  have := hperm.map (fun x => s.indexOf x)
  rw [indexOf_map_self s hnd] at this
  exact this

theorem contains_true_iff (l : List String) (a : String) :
    l.contains a = true ↔ a ∈ l := by simp

theorem famEntries_map_preserving (ws : List (String × WidgetInfo))
    (g : (String × WidgetInfo) → (String × WidgetInfo))
    (hpar : ∀ e, (g e).2.parent_id = e.2.parent_id) (q : String) :
    famEntries (ws.map g) q = (famEntries ws q).map g := by
  unfold famEntries
  rw [List.filter_map]
  congr 1
  apply List.filter_congr
  intro e _
  show parentMatches (g e).2 q = parentMatches e.2 q
  unfold parentMatches
  rw [hpar e]

theorem regKeys_map_preserving (ws : List (String × WidgetInfo))
    (g : (String × WidgetInfo) → (String × WidgetInfo))
    (hkey : ∀ e, (g e).1 = e.1) : regKeys (ws.map g) = regKeys ws := by
  unfold regKeys
  rw [List.map_map]
  apply List.map_congr_left
  intro e _
  exact hkey e

theorem childIds_nodup (ws : List (String × WidgetInfo)) (p : String)
    (hnd : (regKeys ws).Nodup) : ((famEntries ws p).map (fun e => e.1)).Nodup := by
  apply hnd.sublist
  exact (List.filter_sublist ws).map (fun e => e.1)

theorem recompute_widgets_eq (wm : WidgetManager) (pk : String) :
    (recomputeParentState wm pk).widgets =
      wm.widgets.map (fun e =>
        if (sortByKeyF (sortKeyOf wm.widgets)
            ((wm.widgets.filter (fun e => parentMatches e.2 pk)).map (fun e => e.1))).contains e.1
        then (e.1, { e.2 with child_index :=
          (sortByKeyF (sortKeyOf wm.widgets)
            ((wm.widgets.filter (fun e => parentMatches e.2 pk)).map (fun e => e.1))).indexOf e.1 })
        else e) := rfl

theorem recompute_family_perm (wm : WidgetManager) (pk : String)
    (hnd : (regKeys wm.widgets).Nodup) :
    (childIndices (recomputeParentState wm pk) pk).Perm
      (List.range (currentChildCount (recomputeParentState wm pk) pk)) := by
  set ws := wm.widgets with hws
  set childIds := (ws.filter (fun e => parentMatches e.2 pk)).map (fun e => e.1) with hcid
  set sorted := sortByKeyF (sortKeyOf ws) childIds with hsorted
  set f : (String × WidgetInfo) → (String × WidgetInfo) := fun e =>
    if sorted.contains e.1 then (e.1, { e.2 with child_index := sorted.indexOf e.1 })
    else e with hf
  have hkeyf : ∀ e, (f e).1 = e.1 := by
    intro e
    simp only [hf]
    by_cases h : sorted.contains e.1 = true
    · rw [if_pos h]
    · rw [if_neg h]
  have hparf : ∀ e, (f e).2.parent_id = e.2.parent_id := by
    intro e
    simp only [hf]
    by_cases h : sorted.contains e.1 = true
    · rw [if_pos h]
    · rw [if_neg h]
  have hwidgets : (recomputeParentState wm pk).widgets = ws.map f :=
    recompute_widgets_eq wm pk
  have hcnd : childIds.Nodup := childIds_nodup ws pk hnd
  have hperm : sorted.Perm childIds := sortByKeyF_perm _ _
  have hsnd : sorted.Nodup := (hperm.nodup_iff).mpr hcnd
  have hfam : famEntries (ws.map f) pk = (famEntries ws pk).map f :=
    famEntries_map_preserving ws f hparf pk
  have hchild : childIndices (recomputeParentState wm pk) pk =
      childIds.map (fun a => sorted.indexOf a) := by
    unfold childIndices
    rw [hwidgets, hfam, List.map_map, hcid]
    unfold famEntries
    rw [List.map_map]
    apply List.map_congr_left
    intro e he
    have hmem : e.1 ∈ childIds := by
      rw [hcid]
      exact List.mem_map.mpr ⟨e, he, rfl⟩
    have hcont : sorted.contains e.1 = true :=
      (contains_true_iff _ _).mpr (hperm.mem_iff.mpr hmem)
    show (f e).2.child_index = sorted.indexOf e.1
    simp only [hf]
    rw [if_pos hcont]
  have hcount : currentChildCount (recomputeParentState wm pk) pk = sorted.length := by
    unfold currentChildCount
    rw [hwidgets]
    rw [show ((ws.map f).filter (fun e => parentMatches e.2 pk)) =
        famEntries (ws.map f) pk from rfl, hfam]
    rw [List.length_map, hperm.length_eq, hcid]
    unfold famEntries
    rw [List.length_map]
  rw [hchild, hcount]
  exact map_indexOf_perm_range sorted childIds hsnd hperm.symm

theorem recompute_other_family (wm : WidgetManager) (pk : String)
    (hnd : (regKeys wm.widgets).Nodup) (q : String) (hq : q ≠ pk) :
    childIndices (recomputeParentState wm pk) q = childIndices wm q := by
  set ws := wm.widgets with hws
  set childIds := (ws.filter (fun e => parentMatches e.2 pk)).map (fun e => e.1) with hcid
  set sorted := sortByKeyF (sortKeyOf ws) childIds with hsorted
  set f : (String × WidgetInfo) → (String × WidgetInfo) := fun e =>
    if sorted.contains e.1 then (e.1, { e.2 with child_index := sorted.indexOf e.1 })
    else e with hf
  have hparf : ∀ e, (f e).2.parent_id = e.2.parent_id := by
    intro e
    simp only [hf]
    by_cases h : sorted.contains e.1 = true
    · rw [if_pos h]
    · rw [if_neg h]
  have hwidgets : (recomputeParentState wm pk).widgets = ws.map f :=
    recompute_widgets_eq wm pk
  have hfam : famEntries (ws.map f) q = (famEntries ws q).map f :=
    famEntries_map_preserving ws f hparf q
  unfold childIndices
  rw [hwidgets, hfam, List.map_map]
  apply List.map_congr_left
  intro e he
  unfold famEntries at he
  have hein : e ∈ ws := List.mem_of_mem_filter he
  have hmatch : parentMatches e.2 q = true := (List.mem_filter.mp he).2
  have hcont : sorted.contains e.1 = false := by
    by_contra hc
    have hc2 : sorted.contains e.1 = true := by
      cases h : sorted.contains e.1
      · exact absurd h hc
      · rfl
    have hmem : e.1 ∈ childIds :=
      ((sortByKeyF_perm _ _).mem_iff).mp ((contains_true_iff _ _).mp hc2)
    rw [hcid] at hmem
    obtain ⟨e2, he2, hkey⟩ := List.mem_map.mp hmem
    have he2in : e2 ∈ ws := List.mem_of_mem_filter he2
    have hmatch2 : parentMatches e2.2 pk = true := (List.mem_filter.mp he2).2
    have hveq : e.2 = e2.2 := by
      apply entry_unique ws hnd e.1 e.2 e2.2
      · cases e
        exact hein
      · cases e2 with
        | mk a b =>
          simp only at hkey
          rw [hkey] at he2in
          exact he2in
    rw [hveq] at hmatch
    exact hq (parentMatches_unique e2.2 q pk hmatch hmatch2)
  show (f e).2.child_index = e.2.child_index
  simp only [hf]
  rw [if_neg (by rw [hcont]; exact fun h => nomatch h)]

theorem recompute_keys (wm : WidgetManager) (pk : String) :
    regKeys (recomputeParentState wm pk).widgets = regKeys wm.widgets := by
  rw [recompute_widgets_eq]
  apply regKeys_map_preserving
  intro e
  by_cases h : (sortByKeyF (sortKeyOf wm.widgets)
      ((wm.widgets.filter (fun e => parentMatches e.2 pk)).map (fun e => e.1))).contains e.1 = true
  · rw [if_pos h]
  · rw [if_neg h]

theorem recompute_mem_structure (wm : WidgetManager) (pk : String) (e : String × WidgetInfo)
    (he : e ∈ (recomputeParentState wm pk).widgets) :
    ∃ e0 ∈ wm.widgets, e.1 = e0.1 ∧ e.2.parent_id = e0.2.parent_id ∧
      e.2.kind = e0.2.kind ∧ e.2.widget_id = e0.2.widget_id := by
  rw [recompute_widgets_eq] at he
  obtain ⟨e0, he0, hfe⟩ := List.mem_map.mp he
  refine ⟨e0, he0, ?_⟩
  by_cases h : (sortByKeyF (sortKeyOf wm.widgets)
      ((wm.widgets.filter (fun e => parentMatches e.2 pk)).map (fun e => e.1))).contains e0.1 = true
  · rw [if_pos h] at hfe
    rw [← hfe]
    exact ⟨rfl, rfl, rfl, rfl⟩
  · rw [if_neg h] at hfe
    rw [← hfe]
    exact ⟨rfl, rfl, rfl, rfl⟩

theorem mem_childrenOf (ws : List (String × WidgetInfo)) (e : String × WidgetInfo)
    (pid : String) (he : e ∈ ws) (hp : e.2.parent_id = some pid) :
    e.1 ∈ childrenOf ws pid := by
  unfold childrenOf
  apply List.mem_map.mpr
  refine ⟨e, ?_, rfl⟩
  rw [List.mem_filter]
  exact ⟨he, by simp [hp]⟩

theorem childrenOf_subset_collect (ws : List (String × WidgetInfo)) (pid : String)
    (fuel : Nat) (hf : 1 ≤ fuel) (c : String) (hc : c ∈ childrenOf ws pid) :
    c ∈ collectDescendants ws fuel pid := by
  cases fuel with
  | zero => omega
  | succ n =>
    unfold collectDescendants
    apply List.mem_flatMap.mpr
    exact ⟨c, hc, List.mem_cons_self _ _⟩

/-- The registry after `widgets.remove(id)`: first step of
`remove_widget_subtree`. -/
def ws1Of (wm : WidgetManager) (id : String) : List (String × WidgetInfo) :=
  wm.widgets.filter (fun e => e.1 != id)

/-- The descendant keys `collect_descendants` gathers for `id`. -/
def descsOf (wm : WidgetManager) (id : String) : List String :=
  collectDescendants (ws1Of wm id) (ws1Of wm id).length id

/-- The surviving records before the parent-family recompute. -/
def ws2Of (wm : WidgetManager) (id : String) : List (String × WidgetInfo) :=
  (ws1Of wm id).filter (fun e => !(descsOf wm id).contains e.1)

/-- The surviving `child_counts` entries. -/
def cc2Of (wm : WidgetManager) (id : String) : List (String × Nat) :=
  (wm.child_counts.filter (fun e => !(descsOf wm id).contains e.1)).filter
    (fun e => e.1 != id)

theorem removeWidgetSubtree_none (wm : WidgetManager) (id : String)
    (h : List.lookup id wm.widgets = none) : removeWidgetSubtree wm id = (wm, none) := by
  unfold removeWidgetSubtree
  rw [h]

theorem removeWidgetSubtree_some (wm : WidgetManager) (id : String)
    (removed : WidgetInfo) (h : List.lookup id wm.widgets = some removed) :
    (removeWidgetSubtree wm id).1 =
      recomputeParentState { widgets := ws2Of wm id, child_counts := cc2Of wm id }
        (removed.parent_id.getD rootKey) := by
  unfold removeWidgetSubtree
  rw [h]
  rfl

theorem survivors_mem_structure (wm : WidgetManager) (id : String)
    (removed : WidgetInfo) (h : List.lookup id wm.widgets = some removed)
    (e : String × WidgetInfo) (he : e ∈ (removeWidgetSubtree wm id).1.widgets) :
    ∃ e0 ∈ wm.widgets, e.1 = e0.1 ∧ e.2.parent_id = e0.2.parent_id ∧
      e.1 ≠ id ∧ e.1 ∉ descsOf wm id := by
  rw [removeWidgetSubtree_some wm id removed h] at he
  obtain ⟨e0, he0, hkey, hpar, _, _⟩ := recompute_mem_structure _ _ e he
  have he0ws1 : e0 ∈ ws1Of wm id := List.mem_of_mem_filter he0
  have he0notd : e0.1 ∉ descsOf wm id := by
    have := (List.mem_filter.mp he0).2
    simp only [Bool.not_eq_eq_eq_not, Bool.not_true] at this
    intro hmem
    rw [(contains_true_iff _ _).mpr hmem] at this
    exact nomatch this
  have he0ws : e0 ∈ wm.widgets := List.mem_of_mem_filter he0ws1
  have hne : e0.1 ≠ id := by
    have := (List.mem_filter.mp he0ws1).2
    simpa [bne_iff_ne] using this
  exact ⟨e0, he0ws, hkey, hpar, hkey ▸ hne, hkey ▸ he0notd⟩

theorem survivors_parent_ne (wm : WidgetManager) (id : String)
    (removed : WidgetInfo) (h : List.lookup id wm.widgets = some removed)
    (e : String × WidgetInfo) (he : e ∈ (removeWidgetSubtree wm id).1.widgets) :
    e.2.parent_id ≠ some id := by
  obtain ⟨e0, he0ws, hkey, hpar, hne, hnotd⟩ := survivors_mem_structure wm id removed h e he
  intro hpid
  rw [hpar] at hpid
  have he0ws1 : e0 ∈ ws1Of wm id := by
    unfold ws1Of
    rw [List.mem_filter]
    refine ⟨he0ws, ?_⟩
    simp only [bne_iff_ne, ne_eq, decide_eq_true_eq]
    exact fun hq => hne (hkey.trans hq)
  have hchild : e0.1 ∈ childrenOf (ws1Of wm id) id :=
    mem_childrenOf _ e0 id he0ws1 hpid
  have hlen : 1 ≤ (ws1Of wm id).length := by
    cases hw : ws1Of wm id with
    | nil => rw [hw] at he0ws1; simp at he0ws1
    | cons a l => simp [hw]
  have hmem : e0.1 ∈ descsOf wm id :=
    childrenOf_subset_collect _ id _ hlen e0.1 hchild
  exact (hkey ▸ hnotd) hmem

theorem removed_id_gone (wm : WidgetManager) (id : String) :
    List.lookup id (removeWidgetSubtree wm id).1.widgets = none := by
  cases h : List.lookup id wm.widgets with
  | none => rw [removeWidgetSubtree_none wm id h]; exact h
  | some removed =>
    rw [lookup_eq_none_iff]
    intro e he
    obtain ⟨_, _, _, _, hne, _⟩ :=
      survivors_mem_structure wm id removed h e he
    exact hne

/-- Whether following `parent_id` links through live records from `k`, for at
most `fuel` steps, reaches `target`. -/
def chainReaches (ws : List (String × WidgetInfo)) (target : String) :
    Nat → String → Bool
  | 0, _ => false
  | fuel + 1, k =>
    match List.lookup k ws with
    | some info =>
      match info.parent_id with
      | some u => u == target || chainReaches ws target fuel u
      | none => false
    | none => false

theorem no_chain_to_removed (wm : WidgetManager) (id : String)
    (removed : WidgetInfo) (h : List.lookup id wm.widgets = some removed)
    (fuel : Nat) (k : String) :
    chainReaches (removeWidgetSubtree wm id).1.widgets id fuel k = false := by
  induction fuel generalizing k with
  | zero => rfl
  | succ n ih =>
    cases hl : List.lookup k (removeWidgetSubtree wm id).1.widgets with
    | none => simp [chainReaches, hl]
    | some info =>
      cases hp : info.parent_id with
      | none => simp [chainReaches, hl, hp]
      | some u =>
        have hmem := lookup_mem _ k info hl
        have hne : info.parent_id ≠ some id :=
          survivors_parent_ne wm id removed h (k, info) hmem
        have hu : u ≠ id := fun he => hne (hp.trans (by rw [he]))
        have hbe : (u == id) = false := by
          cases hb : u == id
          · rfl
          · exact absurd (eq_of_beq hb) hu
        simp [chainReaches, hl, hp, hbe, ih u]

theorem removeWidgetCommand_wm (wm : WidgetManager) (id : String)
    (removed : WidgetInfo) (h : List.lookup id wm.widgets = some removed) :
    (removeWidgetCommand wm id).wm = (removeWidgetSubtree wm id).1 := by
  unfold removeWidgetCommand
  simp only [h]
  split
  · rfl
  · rfl

theorem removeWidgetCommand_notFound (wm : WidgetManager) (id : String)
    (h : List.lookup id wm.widgets = none) :
    removeWidgetCommand wm id = ⟨wm, [], []⟩ := by
  unfold removeWidgetCommand
  rw [h]

theorem childIndices_length (wm : WidgetManager) (p : String) :
    (childIndices wm p).length = currentChildCount wm p := by
  simp [childIndices, currentChildCount, famEntries]

theorem ws2Of_keys_nodup (wm : WidgetManager) (id : String)
    (hnd : (regKeys wm.widgets).Nodup) : (regKeys (ws2Of wm id)).Nodup := by
  apply hnd.sublist
  unfold regKeys ws2Of ws1Of
  exact (((wm.widgets.filter _).filter_sublist).trans (wm.widgets.filter_sublist)).map _

theorem removal_family_perm (wm : WidgetManager) (id : String)
    (removed : WidgetInfo) (h : List.lookup id wm.widgets = some removed)
    (hnd : (regKeys wm.widgets).Nodup) :
    (childIndices (removeWidgetSubtree wm id).1 (removed.parent_id.getD rootKey)).Perm
      (List.range (currentChildCount (removeWidgetSubtree wm id).1
        (removed.parent_id.getD rootKey))) := by
  rw [removeWidgetSubtree_some wm id removed h]
  exact recompute_family_perm _ _ (ws2Of_keys_nodup wm id hnd)

/-! ## The claimed operation discipline (C1)

Modelled from the spec: the claim's operation model — "each new child is
registered at index `next_child_index(p)` and widgets are removed via
`remove_widget_subtree`".  A create takes effect only when the id is new
(§3: ids are unique among live widgets and `"__root__"` is reserved) and the
native attach succeeded (§4.4 Create; `add_to_parent`,
`src/ui/widgets/utils.rs`); otherwise no record is created, exactly as the
dispatcher behaves.  The opaque native handle is modelled as `0`. -/

/-- One registry operation of the claimed discipline. -/
inductive RegOp
  | create (id : String) (kind : WidgetKind) (parent_id : Option String)
  | remove (id : String)

/-- One step of the claimed discipline. -/
def regStep (wm : WidgetManager) : RegOp → WidgetManager
  | .create id kind parent_id =>
    let parentKey := parent_id.getD rootKey
    let p := nextChildIndex wm parentKey
    if addToParentOk p.2 parent_id && (List.lookup id p.2.widgets).isNone &&
        (id != rootKey) then
      { p.2 with widgets := p.2.widgets ++ [(id, ⟨0, kind, parent_id, p.1⟩)] }
    else p.2
  | .remove id => (removeWidgetSubtree wm id).1

/-- The registry after a sequence of disciplined operations from the empty
registry. -/
def regRun (ops : List RegOp) : WidgetManager :=
  ops.foldl regStep WidgetManager.new

/-- The inductive invariant of the disciplined registry: keys are distinct,
every recorded parent is live, the reserved root key is never a record, and
every family's indices are a permutation of `0..n-1`. -/
def RegInv (wm : WidgetManager) : Prop :=
  (regKeys wm.widgets).Nodup ∧
  (∀ e ∈ wm.widgets, ∀ pid, e.2.parent_id = some pid → pid ∈ regKeys wm.widgets) ∧
  rootKey ∉ regKeys wm.widgets ∧
  ∀ p, (childIndices wm p).Perm (List.range (childIndices wm p).length)

theorem regInv_new : RegInv WidgetManager.new := by
  refine ⟨by simp [WidgetManager.new, regKeys], ?_, ?_, ?_⟩
  · intro e he
    simp [WidgetManager.new] at he
  · simp [WidgetManager.new, regKeys]
  · intro p
    simp [WidgetManager.new, childIndices, famEntries]

/-- A parent chain in the registry: `[k0, k1, …, kn]` where each `ki` is a
live record whose `parent_id` names `k(i+1)`, and `kn`'s parent is `target`.
This is the path `collect_descendants` walks, read upward. -/
def ChainL (ws : List (String × WidgetInfo)) (target : String) : List String → Prop
  | [] => False
  | [k] => ∃ info, (k, info) ∈ ws ∧ info.parent_id = some target
  | k :: u :: rest =>
    (∃ info, (k, info) ∈ ws ∧ info.parent_id = some u) ∧ ChainL ws target (u :: rest)

theorem chainL_mem_keys (ws : List (String × WidgetInfo)) (t : String)
    (cs : List String) (hc : ChainL ws t cs) : ∀ x ∈ cs, x ∈ regKeys ws := by
  induction cs with
  | nil => exact absurd hc (by simp [ChainL])
  | cons k rest ih =>
    intro x hx
    cases rest with
    | nil =>
      obtain ⟨info, hmem, _⟩ := hc
      rcases List.mem_cons.mp hx with rfl | hx2
      · exact List.mem_map.mpr ⟨(x, info), hmem, rfl⟩
      · simp at hx2
    | cons u rest2 =>
      obtain ⟨⟨info, hmem, _⟩, htail⟩ := hc
      rcases List.mem_cons.mp hx with rfl | hx2
      · exact List.mem_map.mpr ⟨(x, info), hmem, rfl⟩
      · exact ih htail x hx2

theorem childrenOf_inv (ws : List (String × WidgetInfo)) (pid c : String)
    (hc : c ∈ childrenOf ws pid) :
    ∃ info, (c, info) ∈ ws ∧ info.parent_id = some pid := by
  unfold childrenOf at hc
  obtain ⟨e, he, hkey⟩ := List.mem_map.mp hc
  have hele : e ∈ ws := List.mem_of_mem_filter he
  have hpar : e.2.parent_id = some pid := by
    have := (List.mem_filter.mp he).2
    simpa using this
  refine ⟨e.2, ?_, hpar⟩
  rw [← hkey]
  cases e
  exact hele

theorem collect_sub_of_child (ws : List (String × WidgetInfo)) (fuel : Nat)
    (p c : String) (hc : c ∈ childrenOf ws p) :
    collectDescendants ws fuel c ⊆ collectDescendants ws (fuel + 1) p := by
  intro x hx
  unfold collectDescendants
  apply List.mem_flatMap.mpr
  exact ⟨c, hc, List.mem_cons_of_mem _ hx⟩

theorem collect_child_step (ws : List (String × WidgetInfo)) (fuel : Nat) :
    ∀ p u c, u ∈ collectDescendants ws fuel p → c ∈ childrenOf ws u →
    c ∈ collectDescendants ws (fuel + 1) p := by
  induction fuel with
  | zero =>
    intro p u c hu
    simp [collectDescendants] at hu
  | succ n ih =>
    intro p u c hu hc
    rw [collectDescendants] at hu
    obtain ⟨c1, hc1, hu2⟩ := List.mem_flatMap.mp hu
    rcases List.mem_cons.mp hu2 with heq | hu3
    · subst heq
      exact collect_sub_of_child ws (n + 1) p u hc1
        (childrenOf_subset_collect ws u (n + 1) (by omega) c hc)
    · exact collect_sub_of_child ws (n + 1) p c1 hc1 (ih c1 u c hu3 hc)

theorem chainL_glue (ws : List (String × WidgetInfo)) (p x : String)
    (hx : ∃ info, (x, info) ∈ ws ∧ info.parent_id = some p) :
    ∀ l, ChainL ws x l → ChainL ws p (l ++ [x]) := by
  intro l
  induction l with
  | nil => intro h; exact absurd h (by simp [ChainL])
  | cons k rest ih =>
    intro h
    cases rest with
    | nil =>
      obtain ⟨info, hmem, hpar⟩ := h
      exact ⟨⟨info, hmem, hpar⟩, hx⟩
    | cons u rest2 =>
      obtain ⟨hk, htail⟩ := h
      exact ⟨hk, ih htail⟩

theorem collect_to_chain (ws : List (String × WidgetInfo)) (fuel : Nat) :
    ∀ p c, c ∈ collectDescendants ws fuel p →
    ∃ cs, ChainL ws p (c :: cs) ∧ (c :: cs).length ≤ fuel := by
  induction fuel with
  | zero =>
    intro p c hc
    simp [collectDescendants] at hc
  | succ n ih =>
    intro p c hc
    rw [collectDescendants] at hc
    obtain ⟨c1, hc1, hc2⟩ := List.mem_flatMap.mp hc
    rcases List.mem_cons.mp hc2 with heq | hc3
    · subst heq
      obtain ⟨info, hmem, hpar⟩ := childrenOf_inv ws p c hc1
      exact ⟨[], ⟨info, hmem, hpar⟩, by simp⟩
    · obtain ⟨cs, hchain, hlen⟩ := ih c1 c hc3
      refine ⟨cs ++ [c1], ?_, ?_⟩
      · have hx := childrenOf_inv ws p c1 hc1
        have := chainL_glue ws p c1 hx (c :: cs) hchain
        simpa using this
      · simp at hlen ⊢
        omega

theorem chain_to_collect (ws : List (String × WidgetInfo)) :
    ∀ cs c p fuel, ChainL ws p (c :: cs) → (c :: cs).length ≤ fuel →
    c ∈ collectDescendants ws fuel p := by
  intro cs
  induction cs with
  | nil =>
    intro c p fuel hchain hlen
    obtain ⟨info, hmem, hpar⟩ := hchain
    have : c ∈ childrenOf ws p := mem_childrenOf ws (c, info) p hmem hpar
    exact childrenOf_subset_collect ws p fuel (by simp at hlen; omega) c this
  | cons u rest ih =>
    intro c p fuel hchain hlen
    obtain ⟨⟨info, hmem, hpar⟩, htail⟩ := hchain
    cases fuel with
    | zero => simp at hlen
    | succ m =>
      have hu : u ∈ collectDescendants ws m p := by
        apply ih u p m htail
        simp at hlen ⊢
        omega
      exact collect_child_step ws m p u c hu
        (mem_childrenOf ws (c, info) u hmem hpar)

theorem chain_unique (ws : List (String × WidgetInfo)) (t : String)
    (hnd : (regKeys ws).Nodup) (ht : t ∉ regKeys ws) :
    ∀ a u b, ChainL ws t (u :: a) → ChainL ws t (u :: b) → a = b := by
  intro a
  induction a with
  | nil =>
    intro u b h1 h2
    cases b with
    | nil => rfl
    | cons w b2 =>
      obtain ⟨info1, hm1, hp1⟩ := h1
      obtain ⟨⟨info2, hm2, hp2⟩, htail⟩ := h2
      have : info1 = info2 := entry_unique ws hnd u info1 info2 hm1 hm2
      subst this
      rw [hp1] at hp2
      have hw : w = t := by
        injection hp2 with h2
        exact h2.symm
      exact absurd (hw ▸ chainL_mem_keys ws t _ htail w (List.mem_cons_self _ _)) ht
  | cons w a2 ih =>
    intro u b h1 h2
    cases b with
    | nil =>
      obtain ⟨⟨info1, hm1, hp1⟩, htail⟩ := h1
      obtain ⟨info2, hm2, hp2⟩ := h2
      have : info1 = info2 := entry_unique ws hnd u info1 info2 hm1 hm2
      subst this
      rw [hp1] at hp2
      have hw : w = t := by injection hp2
      exact absurd (hw ▸ chainL_mem_keys ws t _ htail w (List.mem_cons_self _ _)) ht
    | cons w2 b2 =>
      obtain ⟨⟨info1, hm1, hp1⟩, htail1⟩ := h1
      obtain ⟨⟨info2, hm2, hp2⟩, htail2⟩ := h2
      have : info1 = info2 := entry_unique ws hnd u info1 info2 hm1 hm2
      subst this
      rw [hp1] at hp2
      have hw : w = w2 := by injection hp2
      subst hw
      rw [ih w b2 htail1 htail2]

theorem chainL_from_mem (ws : List (String × WidgetInfo)) (t : String) :
    ∀ cs k, ChainL ws t cs → k ∈ cs →
    ∃ suf, ChainL ws t (k :: suf) ∧ suf.length < cs.length := by
  intro cs
  induction cs with
  | nil => intro k _ hk; simp at hk
  | cons a rest ih =>
    intro k hchain hk
    rcases List.mem_cons.mp hk with heq | hk2
    · subst heq
      exact ⟨rest, hchain, by simp⟩
    · cases rest with
      | nil => simp at hk2
      | cons u rest2 =>
        obtain ⟨_, htail⟩ := hchain
        obtain ⟨suf, hc, hl⟩ := ih k htail hk2
        exact ⟨suf, hc, by simp at hl ⊢; omega⟩

theorem chain_nodup (ws : List (String × WidgetInfo)) (t : String)
    (hnd : (regKeys ws).Nodup) (ht : t ∉ regKeys ws) :
    ∀ cs, ChainL ws t cs → cs.Nodup := by
  intro cs
  induction cs with
  | nil => intro h; exact absurd h (by simp [ChainL])
  | cons k rest ih =>
    intro hchain
    have htailnd : rest.Nodup := by
      cases rest with
      | nil => simp
      | cons u rest2 => exact ih hchain.2
    rw [List.nodup_cons]
    refine ⟨?_, htailnd⟩
    intro hk
    cases rest with
    | nil => simp at hk
    | cons u rest2 =>
      obtain ⟨suf, hc, hl⟩ := chainL_from_mem ws t (u :: rest2) k hchain.2 hk
      have := chain_unique ws t hnd ht (u :: rest2) k suf hchain hc
      rw [← this] at hl
      exact absurd hl (lt_irrefl _)

theorem chain_length_le (ws : List (String × WidgetInfo)) (t : String)
    (cs : List String) (hchain : ChainL ws t cs) (hndcs : cs.Nodup) :
    cs.length ≤ ws.length := by
  have hsub : ∀ x ∈ cs, x ∈ regKeys ws := chainL_mem_keys ws t cs hchain
  calc cs.length = cs.toFinset.card := (List.toFinset_card_of_nodup hndcs).symm
    _ ≤ (regKeys ws).toFinset.card := by
        apply Finset.card_le_card
        intro x hx
        rw [List.mem_toFinset] at hx ⊢
        exact hsub x hx
    _ ≤ (regKeys ws).length := List.toFinset_card_le _
    _ = ws.length := by simp [regKeys]

theorem collect_complete (ws : List (String × WidgetInfo)) (id : String)
    (hnd : (regKeys ws).Nodup) (hid : id ∉ regKeys ws)
    (c : String) (info : WidgetInfo) (hmem : (c, info) ∈ ws) (u : String)
    (hpar : info.parent_id = some u)
    (hu : u = id ∨ u ∈ collectDescendants ws ws.length id) :
    c ∈ collectDescendants ws ws.length id := by
  have hlen1 : 1 ≤ ws.length := by
    cases ws with
    | nil => simp at hmem
    | cons a l => simp
  rcases hu with rfl | hud
  · exact childrenOf_subset_collect ws u ws.length hlen1 c
      (mem_childrenOf ws (c, info) u hmem hpar)
  · obtain ⟨cs, hchain, _⟩ := collect_to_chain ws ws.length id u hud
    have hext : ChainL ws id (c :: u :: cs) := ⟨⟨info, hmem, hpar⟩, hchain⟩
    have hndc : (c :: u :: cs).Nodup := chain_nodup ws id hnd hid _ hext
    have hle : (c :: u :: cs).length ≤ ws.length := chain_length_le ws id _ hext hndc
    exact chain_to_collect ws (u :: cs) c id ws.length hext hle

theorem collect_sound (ws : List (String × WidgetInfo)) :
    ∀ fuel p c, c ∈ collectDescendants ws fuel p →
    ∃ info, (c, info) ∈ ws ∧ (info.parent_id = some p ∨
      ∃ u, u ∈ collectDescendants ws fuel p ∧ info.parent_id = some u) := by
  intro fuel
  induction fuel with
  | zero =>
    intro p c hc
    simp [collectDescendants] at hc
  | succ n ih =>
    intro p c hc
    rw [collectDescendants] at hc
    obtain ⟨c1, hc1, hc2⟩ := List.mem_flatMap.mp hc
    rcases List.mem_cons.mp hc2 with heq | hc3
    · subst heq
      obtain ⟨info, hmem, hpar⟩ := childrenOf_inv ws p c hc1
      exact ⟨info, hmem, Or.inl hpar⟩
    · obtain ⟨info, hmem, hrest⟩ := ih c1 c hc3
      refine ⟨info, hmem, Or.inr ?_⟩
      rcases hrest with hpar | ⟨u, hu, hpar⟩
      · exact ⟨c1, childrenOf_subset_collect ws p (n + 1) (by omega) c1 hc1, hpar⟩
      · exact ⟨u, collect_sub_of_child ws n p c1 hc1 hu, hpar⟩

theorem collect_mem_keys (ws : List (String × WidgetInfo)) (fuel : Nat) (p c : String)
    (hc : c ∈ collectDescendants ws fuel p) : c ∈ regKeys ws := by
  obtain ⟨info, hmem, _⟩ := collect_sound ws fuel p c hc
  exact List.mem_map.mpr ⟨(c, info), hmem, rfl⟩

theorem lookup_none_not_mem_keys {β : Type} (l : List (String × β)) (k : String)
    (h : List.lookup k l = none) : k ∉ l.map (fun e => e.1) := by
  intro hm
  obtain ⟨e, he, hkey⟩ := List.mem_map.mp hm
  rw [lookup_eq_none_iff] at h
  exact h e he hkey

theorem parentMatches_some (info : WidgetInfo) (q : String)
    (hmatch : parentMatches info q = true) (hq : q ≠ rootKey) :
    info.parent_id = some q := by
  unfold parentMatches at hmatch
  cases hp : info.parent_id with
  | some pid =>
    rw [hp] at hmatch
    rw [eq_of_beq hmatch]
  | none =>
    rw [hp] at hmatch
    exact absurd (eq_of_beq hmatch) hq

theorem ws1Of_keys_nodup (wm : WidgetManager) (id : String)
    (hnd : (regKeys wm.widgets).Nodup) : (regKeys (ws1Of wm id)).Nodup := by
  apply hnd.sublist
  unfold regKeys ws1Of
  exact (wm.widgets.filter_sublist).map _

theorem ws1Of_id_not_mem (wm : WidgetManager) (id : String) :
    id ∉ regKeys (ws1Of wm id) := by
  intro hm
  obtain ⟨e, he, hkey⟩ := List.mem_map.mp hm
  have := (List.mem_filter.mp he).2
  rw [hkey] at this
  simp at this

theorem ws1Of_keys_subset (wm : WidgetManager) (id : String) :
    ∀ k, k ∈ regKeys (ws1Of wm id) → k ∈ regKeys wm.widgets := by
  intro k hk
  obtain ⟨e, he, hkey⟩ := List.mem_map.mp hk
  exact List.mem_map.mpr ⟨e, List.mem_of_mem_filter he, hkey⟩

theorem parentMatches_removed_only_pk (removed : WidgetInfo) (q : String)
    (hmatch : parentMatches removed q = true) : q = removed.parent_id.getD rootKey := by
  cases hp : removed.parent_id with
  | some pid =>
    simp only [parentMatches, hp] at hmatch
    simp only [Option.getD_some]
    exact (eq_of_beq hmatch).symm
  | none =>
    simp only [parentMatches, hp] at hmatch
    simp only [Option.getD_none]
    exact eq_of_beq hmatch

theorem fam_preserved (wm : WidgetManager) (id : String) (removed : WidgetInfo)
    (h : List.lookup id wm.widgets = some removed)
    (hnd : (regKeys wm.widgets).Nodup)
    (q : String) (hqpk : q ≠ removed.parent_id.getD rootKey)
    (hqid : q ≠ id) (hqD : q ∉ descsOf wm id) :
    famEntries (ws2Of wm id) q = famEntries wm.widgets q := by
  unfold famEntries ws2Of ws1Of
  rw [List.filter_filter, List.filter_filter]
  apply List.filter_congr
  intro e he
  cases hm : parentMatches e.2 q with
  | false => simp
  | true =>
    have hne : e.1 ≠ id := by
      intro hkey
      have hmem2 : (id, removed) ∈ wm.widgets := lookup_mem _ id removed h
      have hmem1 : (id, e.2) ∈ wm.widgets := by
        rw [← hkey]
        cases e
        exact he
      have : e.2 = removed := entry_unique _ hnd id _ _ hmem1 hmem2
      rw [this] at hm
      exact hqpk (parentMatches_removed_only_pk removed q hm)
    have hnD : e.1 ∉ descsOf wm id := by
      intro hkD
      obtain ⟨info2, hmem2, hcase⟩ :=
        collect_sound (ws1Of wm id) (ws1Of wm id).length id e.1 hkD
      have hmem2w : (e.1, info2) ∈ wm.widgets := List.mem_of_mem_filter hmem2
      have hmem1 : (e.1, e.2) ∈ wm.widgets := by
        cases e
        exact he
      have heq2 : info2 = e.2 := entry_unique _ hnd e.1 _ _ hmem2w hmem1
      subst heq2
      rcases hcase with hpar | ⟨u, hu, hpar⟩
      · have hmq : parentMatches e.2 q = true := hm
        simp only [parentMatches, hpar] at hmq
        exact hqid (eq_of_beq hmq).symm
      · have hmq : parentMatches e.2 q = true := hm
        simp only [parentMatches, hpar] at hmq
        rw [← eq_of_beq hmq] at hqD
        exact hqD hu
    simp [hm, hne, hnD]

theorem fam_removed_empty (wm : WidgetManager) (id : String) (removed : WidgetInfo)
    (h : List.lookup id wm.widgets = some removed)
    (hnd : (regKeys wm.widgets).Nodup)
    (hroot : rootKey ∉ regKeys wm.widgets)
    (q : String) (hq : q = id ∨ q ∈ descsOf wm id) :
    famEntries (ws2Of wm id) q = [] := by
  unfold famEntries
  rw [List.filter_eq_nil_iff]
  intro e he hm
  have he1 : e ∈ ws1Of wm id := List.mem_of_mem_filter he
  have heD : e.1 ∉ descsOf wm id := by
    have := (List.mem_filter.mp he).2
    simp only [Bool.not_eq_eq_eq_not, Bool.not_true] at this
    intro hmem
    rw [(contains_true_iff _ _).mpr hmem] at this
    exact nomatch this
  have hqkeys : q ∈ regKeys wm.widgets := by
    rcases hq with rfl | hqD
    · exact List.mem_map.mpr ⟨(q, removed), lookup_mem _ q removed h, rfl⟩
    · exact ws1Of_keys_subset wm id q (collect_mem_keys _ _ id q hqD)
  have hqroot : q ≠ rootKey := fun he => hroot (he ▸ hqkeys)
  have hpar : e.2.parent_id = some q := parentMatches_some e.2 q hm hqroot
  have hmem1 : (e.1, e.2) ∈ ws1Of wm id := by
    cases e
    exact he1
  have : e.1 ∈ descsOf wm id :=
    collect_complete (ws1Of wm id) id (ws1Of_keys_nodup wm id hnd)
      (ws1Of_id_not_mem wm id) e.1 e.2 hmem1 q hpar hq
  exact heD this

theorem ws2Of_mem_split (wm : WidgetManager) (id : String) (e : String × WidgetInfo)
    (he : e ∈ ws2Of wm id) : e ∈ ws1Of wm id ∧ e.1 ∉ descsOf wm id := by
  refine ⟨List.mem_of_mem_filter he, ?_⟩
  have := (List.mem_filter.mp he).2
  simp only [Bool.not_eq_eq_eq_not, Bool.not_true] at this
  intro hmem
  rw [(contains_true_iff _ _).mpr hmem] at this
  exact nomatch this

theorem ws2Of_mem_build (wm : WidgetManager) (id : String) (e : String × WidgetInfo)
    (he : e ∈ wm.widgets) (hne : e.1 ≠ id) (hnD : e.1 ∉ descsOf wm id) :
    e ∈ ws2Of wm id := by
  apply List.mem_filter.mpr
  refine ⟨List.mem_filter.mpr ⟨he, by simpa [bne_iff_ne] using hne⟩, ?_⟩
  simp only [Bool.not_eq_eq_eq_not, Bool.not_true]
  cases hc : (descsOf wm id).contains e.1
  · rfl
  · exact absurd ((contains_true_iff _ _).mp hc) hnD

theorem ws2Of_keys_subset (wm : WidgetManager) (id : String) :
    ∀ k, k ∈ regKeys (ws2Of wm id) → k ∈ regKeys wm.widgets := by
  intro k hk
  obtain ⟨e, he, hkey⟩ := List.mem_map.mp hk
  exact List.mem_map.mpr ⟨e, (ws2Of_mem_split wm id e he).1 |> List.mem_of_mem_filter, hkey⟩

theorem remove_preserves_inv (wm : WidgetManager) (id : String) (hinv : RegInv wm) :
    RegInv (removeWidgetSubtree wm id).1 := by
  obtain ⟨hnd, hlive, hroot, hcontig⟩ := hinv
  cases h : List.lookup id wm.widgets with
  | none =>
    rw [removeWidgetSubtree_none wm id h]
    exact ⟨hnd, hlive, hroot, hcontig⟩
  | some removed =>
    rw [removeWidgetSubtree_some wm id removed h]
    set pk := removed.parent_id.getD rootKey with hpk
    set wm2 : WidgetManager := ⟨ws2Of wm id, cc2Of wm id⟩ with hwm2
    have hnd2 : (regKeys wm2.widgets).Nodup := ws2Of_keys_nodup wm id hnd
    have hkeys : regKeys (recomputeParentState wm2 pk).widgets = regKeys wm2.widgets :=
      recompute_keys wm2 pk
    refine ⟨?_, ?_, ?_, ?_⟩
    · rw [hkeys]
      exact hnd2
    · intro e he pid hpid
      obtain ⟨e0, he0, hkey, hpar, _, _⟩ := recompute_mem_structure wm2 pk e he
      rw [hkeys]
      have he0ws2 : e0 ∈ ws2Of wm id := he0
      obtain ⟨he0ws1, he0D⟩ := ws2Of_mem_split wm id e0 he0ws2
      have he0ws : e0 ∈ wm.widgets := List.mem_of_mem_filter he0ws1
      have hpid0 : e0.2.parent_id = some pid := by rw [← hpar]; exact hpid
      have hpidkeys : pid ∈ regKeys wm.widgets := hlive e0 he0ws pid hpid0
      obtain ⟨ep, hep, hepkey⟩ := List.mem_map.mp hpidkeys
      have he0pair : (e0.1, e0.2) ∈ ws1Of wm id := by
        cases e0
        exact he0ws1
      have hlen1 : 1 ≤ (ws1Of wm id).length := by
        cases hw : ws1Of wm id with
        | nil => rw [hw] at he0ws1; simp at he0ws1
        | cons a l => simp
      have hpid_ne : pid ≠ id := by
        intro heq
        rw [heq] at hpid0
        exact he0D (childrenOf_subset_collect (ws1Of wm id) id _ hlen1 e0.1
          (mem_childrenOf _ (e0.1, e0.2) id he0pair hpid0))
      have hpid_nD : pid ∉ descsOf wm id := by
        intro hD
        exact he0D (collect_complete (ws1Of wm id) id (ws1Of_keys_nodup wm id hnd)
          (ws1Of_id_not_mem wm id) e0.1 e0.2 he0pair pid hpid0 (Or.inr hD))
      have hep2 : ep ∈ ws2Of wm id :=
        ws2Of_mem_build wm id ep hep (hepkey ▸ hpid_ne) (hepkey ▸ hpid_nD)
      exact List.mem_map.mpr ⟨ep, hep2, hepkey⟩
    · rw [hkeys]
      intro hmem
      exact hroot (ws2Of_keys_subset wm id rootKey hmem)
    · intro q
      by_cases hq : q = pk
      · rw [hq, childIndices_length]
        exact recompute_family_perm wm2 pk hnd2
      · rw [recompute_other_family wm2 pk hnd2 q hq]
        by_cases hqid : q = id
        · have hfam : famEntries wm2.widgets q = [] :=
            fam_removed_empty wm id removed h hnd hroot q (Or.inl hqid)
          unfold childIndices
          rw [hfam]
          simp
        · by_cases hqD : q ∈ descsOf wm id
          · have hfam : famEntries wm2.widgets q = [] :=
              fam_removed_empty wm id removed h hnd hroot q (Or.inr hqD)
            unfold childIndices
            rw [hfam]
            simp
          · have hfam : famEntries wm2.widgets q = famEntries wm.widgets q :=
              fam_preserved wm id removed h hnd q hq hqid hqD
            unfold childIndices
            rw [hfam]
            exact hcontig q

theorem addToParentOk_some (wm : WidgetManager) (pkk : String)
    (h : addToParentOk wm (some pkk) = true) : pkk ∈ regKeys wm.widgets := by
  cases hl : List.lookup pkk wm.widgets with
  | none => simp [addToParentOk, hl] at h
  | some pi => exact List.mem_map.mpr ⟨(pkk, pi), lookup_mem _ pkk pi hl, rfl⟩

theorem parentMatches_pk_self (info : WidgetInfo) (q : String)
    (hq : q = info.parent_id.getD rootKey) : parentMatches info q = true := by
  cases hp : info.parent_id with
  | some pid =>
    rw [hp, Option.getD_some] at hq
    simp [parentMatches, hp, hq]
  | none =>
    rw [hp, Option.getD_none] at hq
    simp [parentMatches, hp, hq]

theorem create_preserves_inv (wm : WidgetManager) (id : String) (kind : WidgetKind)
    (parent_id : Option String) (hinv : RegInv wm) :
    RegInv (regStep wm (.create id kind parent_id)) := by
  obtain ⟨hnd, hlive, hroot, hcontig⟩ := hinv
  simp only [regStep]
  split
  · rename_i hg
    simp only [Bool.and_eq_true, bne_iff_ne, ne_eq] at hg
    obtain ⟨⟨hok, hfresh⟩, hidroot⟩ := hg
    have hfresh2 : List.lookup id wm.widgets = none := Option.isNone_iff_eq_none.mp hfresh
    have hidmem : id ∉ regKeys wm.widgets := lookup_none_not_mem_keys _ id hfresh2
    set parentKey := parent_id.getD rootKey with hpkdef
    set newinfo : WidgetInfo :=
      ⟨0, kind, parent_id, (nextChildIndex wm parentKey).1⟩ with hni
    refine ⟨?_, ?_, ?_, ?_⟩
    · show (regKeys (wm.widgets ++ [(id, newinfo)])).Nodup
      unfold regKeys
      rw [List.map_append, List.nodup_append]
      refine ⟨hnd, List.nodup_singleton id, ?_⟩
      intro a ha hb
      simp only [List.map_cons, List.map_nil, List.mem_singleton] at hb
      rw [hb] at ha
      exact hidmem ha
    · intro e he pid hpid
      show pid ∈ regKeys (wm.widgets ++ [(id, newinfo)])
      have hsup : ∀ k, k ∈ regKeys wm.widgets →
          k ∈ regKeys (wm.widgets ++ [(id, newinfo)]) := by
        intro k hk
        unfold regKeys at hk ⊢
        rw [List.map_append]
        exact List.mem_append_left _ hk
      rcases List.mem_append.mp he with hold | hnew
      · exact hsup pid (hlive e hold pid hpid)
      · simp only [List.mem_singleton] at hnew
        rw [hnew] at hpid
        cases hpi : parent_id with
        | none =>
          rw [hni] at hpid
          simp [hpi] at hpid
        | some pkk =>
          rw [hni] at hpid
          simp only [hpi] at hpid
          have hpe : pkk = pid := by injection hpid
          rw [← hpe]
          exact hsup pkk (addToParentOk_some _ pkk (by rw [← hpi]; exact hok))
    · show rootKey ∉ regKeys (wm.widgets ++ [(id, newinfo)])
      unfold regKeys
      rw [List.map_append]
      intro hmem
      rcases List.mem_append.mp hmem with hmem1 | hmem2
      · exact hroot hmem1
      · simp only [List.map_cons, List.map_nil, List.mem_singleton] at hmem2
        exact hidroot hmem2.symm
    · intro q
      have hfamapp : famEntries (wm.widgets ++ [(id, newinfo)]) q =
          famEntries wm.widgets q ++
            List.filter (fun e => parentMatches e.2 q) [(id, newinfo)] := by
        unfold famEntries
        rw [List.filter_append]
      show ((famEntries (wm.widgets ++ [(id, newinfo)]) q).map
          (fun e => e.2.child_index)).Perm
        (List.range ((famEntries (wm.widgets ++ [(id, newinfo)]) q).map
          (fun e => e.2.child_index)).length)
      by_cases hq : q = parentKey
      · have hmatch : parentMatches newinfo q = true := by
          apply parentMatches_pk_self
          rw [hq, hni]
        have hfilter : List.filter (fun e => parentMatches e.2 q) [(id, newinfo)] =
            [(id, newinfo)] := by
          simp [hmatch]
        rw [hfamapp, hfilter, List.map_append]
        simp only [List.map_cons, List.map_nil]
        have hn : (nextChildIndex wm parentKey).1 = (childIndices wm q).length := by
          rw [childIndices_length]
          show currentChildCount wm parentKey = currentChildCount wm q
          rw [hq]
        rw [hn]
        have hperm := (hcontig q).append_right [(childIndices wm q).length]
        rw [← List.range_succ] at hperm
        simp only [List.length_append, List.length_cons, List.length_nil]
        have hgoal : ((famEntries wm.widgets q).map (fun e => e.2.child_index)) =
            childIndices wm q := rfl
        rw [hgoal]
        simpa using hperm
      · have hmatchf : parentMatches newinfo q = false := by
          cases hmb : parentMatches newinfo q
          · rfl
          · have := parentMatches_removed_only_pk newinfo q hmb
            rw [hni] at this
            exact absurd this hq
        have hfilter : List.filter (fun e => parentMatches e.2 q) [(id, newinfo)] = [] := by
          simp [hmatchf]
        rw [hfamapp, hfilter, List.append_nil]
        exact hcontig q
  · exact ⟨hnd, hlive, hroot, hcontig⟩

theorem regStep_preserves_inv (wm : WidgetManager) (op : RegOp) (hinv : RegInv wm) :
    RegInv (regStep wm op) := by
  cases op with
  | create id kind parent_id => exact create_preserves_inv wm id kind parent_id hinv
  | remove id => exact remove_preserves_inv wm id hinv

theorem regRun_inv (ops : List RegOp) : RegInv (regRun ops) := by
  unfold regRun
  have : ∀ (l : List RegOp) (wm : WidgetManager), RegInv wm →
      RegInv (l.foldl regStep wm) := by
    intro l
    induction l with
    | nil => intro wm h; exact h
    | cons op rest ih =>
      intro wm h
      exact ih (regStep wm op) (regStep_preserves_inv wm op h)
  exact this ops WidgetManager.new regInv_new

theorem sibling_count_pos (wm : WidgetManager) (id : String) (info : WidgetInfo)
    (h : List.lookup id wm.widgets = some info) :
    1 ≤ currentChildCount wm (info.parent_id.getD rootKey) := by
  have hmem : (id, info) ∈ wm.widgets := lookup_mem _ id info h
  have hmatch : parentMatches info (info.parent_id.getD rootKey) = true :=
    parentMatches_pk_self info _ rfl
  have hfam : (id, info) ∈ wm.widgets.filter
      (fun e => parentMatches e.2 (info.parent_id.getD rootKey)) :=
    List.mem_filter.mpr ⟨hmem, hmatch⟩
  unfold currentChildCount
  have := List.ne_nil_of_mem hfam
  cases hl : wm.widgets.filter
      (fun e => parentMatches e.2 (info.parent_id.getD rootKey)) with
  | nil => exact absurd hl this
  | cons a l => simp

/-- The index argument of a positional native child removal, when the
operation has one. -/
def removalIndexOf : NativeOp → Option Nat
  | .flexRemoveChildRoot i => some i
  | .flexRemoveChild _ i => some i
  | .buttonFlexRemoveChild _ i => some i
  | .zstackRemoveChild _ i => some i
  | _ => none

theorem head_append (s t : String) (c : Char) (h : s.data.head? = some c) :
    (s ++ t).data.head? = some c := by
  rw [String.data_append]
  cases hd : s.data with
  | nil => rw [hd] at h; exact nomatch h
  | cons a l =>
    rw [hd] at h
    simpa using h

theorem string_ne_of_head (s t : String) (c1 c2 : Char)
    (h1 : s.data.head? = some c1) (h2 : t.data.head? = some c2) (hne : c1 ≠ c2) :
    s ≠ t := by
  intro he
  rw [he] at h1
  rw [h1] at h2
  injection h2 with h3
  exact hne h3

theorem remove_ops_safe (wm : WidgetManager) (id : String) (info : WidgetInfo)
    (h : List.lookup id wm.widgets = some info) :
    ∀ op ∈ (removeWidgetCommand wm id).ops, ∀ i, removalIndexOf op = some i →
      i < currentChildCount wm (info.parent_id.getD rootKey) := by
  have hsc1 := sibling_count_pos wm id info h
  intro op hop i hidx
  unfold removeWidgetCommand at hop
  simp only [h] at hop
  split at hop
  · simp at hop
  · split at hop
    · simp only [List.mem_singleton] at hop
      subst hop
      simp only [removalIndexOf, Option.some.injEq] at hidx
      subst hidx
      split <;> omega
    · split at hop
      · split at hop <;>
          first
            | (simp only [List.mem_singleton] at hop
               subst hop
               simp only [removalIndexOf, Option.some.injEq] at hidx
               first
                | (subst hidx
                   split <;> omega)
                | exact nomatch hidx)
            | simp at hop
      · simp at hop

/-! ## The claims -/

/-- C1: index contiguity.  For every parent key `p` (the reserved root key
included), after any sequence of operations from the empty registry in which
each new child is registered at `next_child_index(p)` and widgets are removed
via `remove_widget_subtree`, the `child_index` values of the live records
whose parent is `p` are exactly `{0, …, n-1}` with no gaps or duplicates,
where `n` is the number of live children of `p`. -/
theorem C1_child_index_contiguity (ops : List RegOp) (p : String) :
    (childIndices (regRun ops) p).Perm
      (List.range (currentChildCount (regRun ops) p)) := by
  have h := (regRun_inv ops).2.2.2 p
  rwa [childIndices_length] at h

/-- C2 counterexample: dispatching `RemoveWidget "w"` twice on a registry
holding only `"w"` leaves the second dispatch with an empty diagnostics list
— the claimed "exactly one non-fatal not-found diagnostic event" of the
second call does not exist (the handler only logs to stdout,
`src/ui/handler.rs:463-470`). -/
theorem C2_counterexample :
    (removeWidgetCommand
      (removeWidgetCommand ⟨[("w", ⟨0, .label, none, 0⟩)], [(rootKey, 1)]⟩ "w").wm
      "w").diags = [] := by decide

/-- C2 as corrected: removal is idempotent and the second dispatch is
silent.  For every registry and id, dispatching `RemoveWidget` a second time
leaves the registry exactly as after the first dispatch, issues no native
mutation, and emits no diagnostic event at all. -/
theorem C2_second_removal_silent (wm : WidgetManager) (id : String) :
    removeWidgetCommand (removeWidgetCommand wm id).wm id =
      ⟨(removeWidgetCommand wm id).wm, [], []⟩ := by
  apply removeWidgetCommand_notFound
  cases h : List.lookup id wm.widgets with
  | none =>
    rw [removeWidgetCommand_notFound wm id h]
    exact h
  | some info =>
    rw [removeWidgetCommand_wm wm id info h]
    exact removed_id_gone wm id

/-- C4 counterexample: the coexisting `next_child_index` of
`src/ui_thread/handler.rs:59-64` is a stored counter, not a recount.  After
one failed create (parent `"p"` does not exist, so `add_to_parent` fails and
no record is inserted) the counter for `"p"` already reads `1` while the
live child count under `"p"` is `0`. -/
theorem C4_counterexample :
    (nextChildIndexCounter
        (uiThreadCreateWidget WidgetManagerC.new "a" .label (some "p")) "p").1 = 1 ∧
    currentChildCountC
        (uiThreadCreateWidget WidgetManagerC.new "a" .label (some "p")) "p" = 0 := by
  decide

/-- C4 as corrected: the registry's own `next_child_index`
(`src/ui/widget_manager.rs:55-59`) returns exactly the live child count
under the parent key, recomputed from the live records at call time — so in
particular it reflects prior removals.  The claim's "never a monotonically
increasing counter" does not hold of the second, counter-based
implementation in `src/ui_thread/handler.rs`. -/
theorem C4_next_child_index_recomputed (wm : WidgetManager) (p : String) :
    (nextChildIndex wm p).1 = currentChildCount wm p := rfl

/-- C3: stale-index clamping.  For every id present in the registry, every
index the `RemoveWidget` dispatch passes to a positional native child
removal is strictly below the live sibling count (which is at least one,
since the widget itself is a live child of its parent); and when the
recorded `child_index` is stale (at or above the live count) the non-fatal
clamp diagnostic is among the emitted diagnostics. -/
theorem C3_stale_index_clamping (wm : WidgetManager) (id : String)
    (info : WidgetInfo) (h : List.lookup id wm.widgets = some info) :
    (∀ op ∈ (removeWidgetCommand wm id).ops, ∀ i, removalIndexOf op = some i →
      i < currentChildCount wm (info.parent_id.getD rootKey)) ∧
    (currentChildCount wm (info.parent_id.getD rootKey) ≤ info.child_index →
      uiDiag ("RemoveWidget for '" ++ id ++ "' had stale index " ++
          toString info.child_index ++ "; clamped within parent '" ++
          info.parent_id.getD rootKey ++ "'") ∈
        (removeWidgetCommand wm id).diags) := by
  refine ⟨remove_ops_safe wm id info h, fun hstale => ?_⟩
  have hsc1 := sibling_count_pos wm id info h
  unfold removeWidgetCommand
  simp only [h]
  split
  · next hz =>
    simp only [beq_iff_eq] at hz
    omega
  · apply List.mem_append_left
    rw [if_neg (by omega)]
    exact List.mem_singleton_self _

theorem C3_witness :
    (0 < currentChildCount
        (⟨[("w", ⟨0, .label, none, 5⟩)], [(rootKey, 1)]⟩ : WidgetManager) rootKey) ∧
    uiDiag ("RemoveWidget for '" ++ "w" ++ "' had stale index " ++ toString 5 ++
        "; clamped within parent '" ++ rootKey ++ "'") ∈
      (removeWidgetCommand
        (⟨[("w", ⟨0, .label, none, 5⟩)], [(rootKey, 1)]⟩ : WidgetManager) "w").diags := by
  have h := C3_stale_index_clamping
    ⟨[("w", ⟨0, .label, none, 5⟩)], [(rootKey, 1)]⟩ "w"
    ⟨0, .label, none, 5⟩ (by decide)
  refine ⟨?_, ?_⟩
  · exact h.1 (.flexRemoveChildRoot 0) (by decide) 0 rfl
  · exact h.2 (by decide)

/-- C5: metadata never lags.  For every id present in a duplicate-free
registry, after the `RemoveWidget` dispatch the registry contains neither
the id nor any record whose `parent_id` chain leads to the id, and the
removed widget's parent family is left with `child_index` values that are a
permutation of `0..n-1` for its new live count — with no hypothesis on
whether the native removal could be issued (parent missing and unsupported
parent kinds are covered by the same statement). -/
theorem C5_metadata_never_lags (wm : WidgetManager) (id : String)
    (info : WidgetInfo) (h : List.lookup id wm.widgets = some info)
    (hnd : (regKeys wm.widgets).Nodup) :
    List.lookup id (removeWidgetCommand wm id).wm.widgets = none ∧
    (∀ fuel k,
      chainReaches (removeWidgetCommand wm id).wm.widgets id fuel k = false) ∧
    (childIndices (removeWidgetCommand wm id).wm
        (info.parent_id.getD rootKey)).Perm
      (List.range (currentChildCount (removeWidgetCommand wm id).wm
        (info.parent_id.getD rootKey))) := by
  rw [removeWidgetCommand_wm wm id info h]
  exact ⟨removed_id_gone wm id,
    fun fuel k => no_chain_to_removed wm id info h fuel k,
    removal_family_perm wm id info h hnd⟩

theorem C5_witness :
    List.lookup "p" (removeWidgetCommand
      (⟨[("p", ⟨1, .flex, none, 0⟩), ("c", ⟨2, .label, some "p", 0⟩)],
        [(rootKey, 1), ("p", 1)]⟩ : WidgetManager) "p").wm.widgets = none ∧
    chainReaches (removeWidgetCommand
      (⟨[("p", ⟨1, .flex, none, 0⟩), ("c", ⟨2, .label, some "p", 0⟩)],
        [(rootKey, 1), ("p", 1)]⟩ : WidgetManager) "p").wm.widgets "p" 2 "c" = false ∧
    (childIndices (removeWidgetCommand
      (⟨[("p", ⟨1, .flex, none, 0⟩), ("c", ⟨2, .label, some "p", 0⟩)],
        [(rootKey, 1), ("p", 1)]⟩ : WidgetManager) "p").wm rootKey).Perm
      (List.range (currentChildCount (removeWidgetCommand
        (⟨[("p", ⟨1, .flex, none, 0⟩), ("c", ⟨2, .label, some "p", 0⟩)],
          [(rootKey, 1), ("p", 1)]⟩ : WidgetManager) "p").wm rootKey)) := by
  have h := C5_metadata_never_lags
    ⟨[("p", ⟨1, .flex, none, 0⟩), ("c", ⟨2, .label, some "p", 0⟩)],
      [(rootKey, 1), ("p", 1)]⟩ "p" ⟨1, .flex, none, 0⟩ (by decide) (by decide)
  exact ⟨h.1, h.2.1 2 "c", h.2.2⟩

/-- C7 counterexample: a short read mid-frame is NOT reported.  The input
declares a 5-byte payload but only 2 payload bytes arrive before end of
stream; `read_exact` fails with `UnexpectedEof`, which the read loop treats
exactly like a clean boundary disconnect (`src/ipc/server.rs:337-339`): the
loop breaks silently, with a decoder that would have accepted any payload
and with no decode-error report — refuting the claimed mid-frame error
reporting. -/
theorem C7_counterexample :
    readThreadStep (fun _ => some 0) [5, 0, 0, 0, 1, 2] = ReadStep.disconnect := by
  rfl

/-- C7 as corrected: end of stream before a complete frame — at the frame
boundary or mid-frame alike — ends the read loop as a silent disconnect;
only a complete frame whose payload fails to decode is reported as a
non-fatal `"socket-read"` error with the loop continuing, and a complete
frame that decodes is delivered with the loop continuing.  Stated as
equality of the read-loop iteration with that contract on the bytes. -/
theorem C7_framing_failure_semantics {α : Type} (dec : List Nat → Option α)
    (input : List Nat) :
    readThreadStep dec input = readThreadStepSpec dec input :=
  readThreadStep_eq_spec dec input

/-- C8: single-property/full-style equivalence.  Dispatching
`SetStyleProperty{id, property, value}` is definitionally the same
`DispatchResult` — registry, native mutations and diagnostics — as
dispatching `SetWidgetStyle{id, style}` with the one-entry style payload
built from the pair: both arms run the shared `applySetWidgetStyle`. -/
theorem C8_style_property_equivalence (buildStyle : String → String → BoxStyle)
    (id property value : String) (wm : WidgetManager) :
    handleClientCommand buildStyle (.setStyleProperty id property value) wm =
      handleClientCommand buildStyle
        (.setWidgetStyle id (buildStyle property value)) wm := rfl

/-- C9: round-trip framing.  For every well-formed command and event
message whose encoding is shorter than `2^32` bytes: writing the encoded
payload with `write_msgpack_frame` and reading the produced bytes back with
`read_msgpack_frame` yields the original message with the stream fully
consumed; the bytes written are the 4-byte little-endian length prefix
followed by exactly the payload; and the writer trace is prefix-chunk,
payload-chunk, then one flush. -/
theorem C9_roundtrip_framing (m : JsToRustMessage) (e : RustToJsMessage)
    (hm : wfTopMap (jsMsgPairs m) = true) (he : wfTopMap (rustMsgPairs e) = true)
    (hlm : (encJsMsg m).length < 2 ^ 32) (hle : (encRustMsg e).length < 2 ^ 32) :
    readMsgpackFrame decJsMsg (writeMsgpackFrameBytes (encJsMsg m)) =
      (.ok m, []) ∧
    readMsgpackFrame decRustMsg (writeMsgpackFrameBytes (encRustMsg e)) =
      (.ok e, []) ∧
    writeMsgpackFrameBytes (encJsMsg m) =
      leBytes 4 (encJsMsg m).length ++ encJsMsg m ∧
    writeMsgpackFrameEvents (encJsMsg m) =
      [.chunk (leBytes 4 (encJsMsg m).length), .chunk (encJsMsg m), .flushed] := by
  refine ⟨readMsgpackFrame_write decJsMsg _ m hlm (decJsMsg_encJsMsg m hm),
    readMsgpackFrame_write decRustMsg _ e hle (decRustMsg_encRustMsg e he), ?_, ?_⟩
  · unfold writeMsgpackFrameBytes
    rw [Nat.mod_eq_of_lt hlm]
  · unfold writeMsgpackFrameEvents
    rw [Nat.mod_eq_of_lt hlm]

theorem C9_witness :
    readMsgpackFrame decJsMsg
        (writeMsgpackFrameBytes (encJsMsg (.setImageData [] []))) =
      (.ok (.setImageData [] []), []) ∧
    readMsgpackFrame decRustMsg
        (writeMsgpackFrameBytes (encRustMsg (.uiEvent (.runtimeError [] [] false)))) =
      (.ok (.uiEvent (.runtimeError [] [] false)), []) := by
  have h := C9_roundtrip_framing (.setImageData [] [])
    (.uiEvent (.runtimeError [] [] false)) (by decide) (by decide)
    (by decide) (by decide)
  exact ⟨h.1, h.2.1⟩

/-- C10: the length prefix is `payload.len() as u32`.  For every payload,
the declared length of the written frame is the payload length modulo
`2^32` while all payload bytes are written after the 4 prefix bytes; when
the payload is shorter than `2^32` bytes the prefix is exact. -/
theorem C10_u32_length_prefix (payload : List Nat) :
    frameDeclaredLen (writeMsgpackFrameBytes payload) =
      payload.length % 2 ^ 32 ∧
    (writeMsgpackFrameBytes payload).drop 4 = payload ∧
    (payload.length < 2 ^ 32 →
      frameDeclaredLen (writeMsgpackFrameBytes payload) = payload.length) := by
  have h1 : frameDeclaredLen (writeMsgpackFrameBytes payload) =
      payload.length % 2 ^ 32 := by
    unfold frameDeclaredLen writeMsgpackFrameBytes
    rw [List.take_left' (leBytes_length 4 _), leVal_leBytes_mod, ← pow_256_four]
    omega
  refine ⟨h1, ?_, fun hlt => h1.trans (Nat.mod_eq_of_lt hlt)⟩
  unfold writeMsgpackFrameBytes
  rw [List.drop_left' (leBytes_length 4 _)]

theorem C10_witness :
    frameDeclaredLen (writeMsgpackFrameBytes [9, 9, 9]) = 3 ∧
    (writeMsgpackFrameBytes [9, 9, 9]).drop 4 = [9, 9, 9] := by
  have h := C10_u32_length_prefix [9, 9, 9]
  exact ⟨h.2.2 (by decide), h.2.1⟩

/-- The kinds for which the `SetWidgetText` arm issues a native text edit
(`src/ui/handler.rs:84-111`). -/
def textMutationLegal : WidgetKind → Bool
  | .label | .prose | .textInput | .svg => true
  | _ => false

/-- The kinds for which the `SetWidgetValue` arm issues a native value edit
(`src/ui/handler.rs:113-143`). -/
def valueMutationLegal : WidgetKind → Bool
  | .progressBar | .slider => true
  | _ => false

/-- The kinds for which the `SetWidgetChecked` arm issues a native edit
(`src/ui/handler.rs:145-173`). -/
def checkedMutationLegal : WidgetKind → Bool
  | .checkbox => true
  | _ => false

/-- The kinds for which the `SetWidgetStyle` arm issues a native style edit
on a non-root id (`src/ui/handler.rs:192-284`).  `Image` is neither here
nor diagnosed: its arm is the silent no-op of `src/ui/handler.rs:258-262`. -/
def styleMutationLegal : WidgetKind → Bool
  | .label | .button | .svg | .flex | .container | .progressBar | .slider
  | .sizedBox => true
  | _ => false

/-- The kinds for which the `SetImageData` arm issues a native edit
(`src/ui/handler.rs:473-501`). -/
def imageDataLegal : WidgetKind → Bool
  | .image => true
  | _ => false

/-- Whether `cmd` is one of the five mutate-by-id commands targeting `id`,
paired with its legality on kind `k` (read off the dispatch arms of
`src/ui/handler.rs`); `none` for every other command. -/
def mutateLegal : ClientCommand → String → WidgetKind → Option Bool
  | .setWidgetText tid _, id, k =>
    if tid = id then some (textMutationLegal k) else none
  | .setWidgetValue tid _, id, k =>
    if tid = id then some (valueMutationLegal k) else none
  | .setWidgetChecked tid _, id, k =>
    if tid = id then some (checkedMutationLegal k) else none
  | .setWidgetStyle tid _, id, k =>
    if tid = id then some (styleMutationLegal k) else none
  | .setImageData tid _, id, k =>
    if tid = id then some (imageDataLegal k) else none
  | _, _, _ => none

/-- The one silently-ignored pair: a full-style command on an `Image`
widget (`src/ui/handler.rs:258-262`). -/
def styleOnImage : ClientCommand → WidgetKind → Bool
  | .setWidgetStyle _ _, k => k == .image
  | _, _ => false

/-- C6 counterexample: `SetWidgetStyle` on a registered `Image` widget is
an illegal pair per the declared table, yet the dispatch issues no native
mutation AND emits no diagnostic at all — the command is silently ignored
(`src/ui/handler.rs:258-262`), refuting "never silently ignoring". -/
theorem C6_counterexample :
    (handleClientCommand (fun _ _ => ⟨"s"⟩) (.setWidgetStyle "i" ⟨"s"⟩)
        ⟨[("i", ⟨3, .image, none, 0⟩)], [(rootKey, 1)]⟩).ops = [] ∧
    (handleClientCommand (fun _ _ => ⟨"s"⟩) (.setWidgetStyle "i" ⟨"s"⟩)
        ⟨[("i", ⟨3, .image, none, 0⟩)], [(rootKey, 1)]⟩).diags = [] := by
  decide

/-- C6 as corrected: capability gating holds for every illegal pair except
one.  For every registered non-root widget and every mutate-by-id command
(set text, set value, set checked, set style, set image data) whose kind is
not declared legal for it, dispatch leaves the registry unchanged, issues
zero native mutations and emits exactly one non-fatal diagnostic — with the
single exception of `SetWidgetStyle` on an `Image` widget, which is
silently ignored (zero mutations, zero diagnostics). -/
theorem C6_capability_gating (buildStyle : String → String → BoxStyle)
    (wm : WidgetManager) (cmd : ClientCommand) (id : String) (info : WidgetInfo)
    (h : List.lookup id wm.widgets = some info)
    (hroot : (id == rootKey) = false)
    (hilleg : mutateLegal cmd id info.kind = some false)
    (himg : styleOnImage cmd info.kind = false) :
    (handleClientCommand buildStyle cmd wm).wm = wm ∧
    (handleClientCommand buildStyle cmd wm).ops = [] ∧
    ∃ d, (handleClientCommand buildStyle cmd wm).diags = [d] ∧ d.fatal = false := by
  obtain ⟨wid, k, pid, ci⟩ := info
  cases cmd with
  | setWidgetText tid text =>
    by_cases ht : tid = id
    · subst ht
      simp only [mutateLegal, if_pos rfl] at hilleg
      injection hilleg with hb
      cases k <;>
        first
          | exact absurd hb.symm Bool.false_ne_true
          | (simp only [handleClientCommand, h]
             refine ⟨?_, ?_, ⟨_, rfl, rfl⟩⟩ <;> trivial)
    · simp only [mutateLegal, if_neg ht] at hilleg
      exact nomatch hilleg
  | setWidgetValue tid value =>
    by_cases ht : tid = id
    · subst ht
      simp only [mutateLegal, if_pos rfl] at hilleg
      injection hilleg with hb
      cases k <;>
        first
          | exact absurd hb.symm Bool.false_ne_true
          | (simp only [handleClientCommand, h]
             refine ⟨?_, ?_, ⟨_, rfl, rfl⟩⟩ <;> trivial)
    · simp only [mutateLegal, if_neg ht] at hilleg
      exact nomatch hilleg
  | setWidgetChecked tid checked =>
    by_cases ht : tid = id
    · subst ht
      simp only [mutateLegal, if_pos rfl] at hilleg
      injection hilleg with hb
      cases k <;>
        first
          | exact absurd hb.symm Bool.false_ne_true
          | (simp only [handleClientCommand, h]
             refine ⟨?_, ?_, ⟨_, rfl, rfl⟩⟩ <;> trivial)
    · simp only [mutateLegal, if_neg ht] at hilleg
      exact nomatch hilleg
  | setWidgetStyle tid style =>
    by_cases ht : tid = id
    · subst ht
      simp only [mutateLegal, if_pos rfl] at hilleg
      injection hilleg with hb
      cases k <;>
        first
          | exact absurd hb.symm Bool.false_ne_true
          | exact absurd himg.symm Bool.false_ne_true
          | (simp only [handleClientCommand, applySetWidgetStyle, hroot,
               Bool.false_eq_true, if_false, h]
             refine ⟨?_, ?_, ⟨_, rfl, rfl⟩⟩ <;> trivial)
    · simp only [mutateLegal, if_neg ht] at hilleg
      exact nomatch hilleg
  | setImageData tid data =>
    by_cases ht : tid = id
    · subst ht
      simp only [mutateLegal, if_pos rfl] at hilleg
      injection hilleg with hb
      cases k <;>
        first
          | exact absurd hb.symm Bool.false_ne_true
          | (simp only [handleClientCommand, h]
             refine ⟨?_, ?_, ⟨_, rfl, rfl⟩⟩ <;> trivial)
    · simp only [mutateLegal, if_neg ht] at hilleg
      exact nomatch hilleg
  | setTitle title => exact nomatch hilleg
  | createWidget i kd p t s d => exact nomatch hilleg
  | setStyleProperty i p v => exact nomatch hilleg
  | setWidgetVisible i v => exact nomatch hilleg
  | removeWidget i => exact nomatch hilleg
  | resizeWindow w hh => exact nomatch hilleg
  | closeWindow => exact nomatch hilleg
  | exitApp => exact nomatch hilleg

theorem C6_witness :
    (handleClientCommand (fun _ _ => ⟨"s"⟩) (.setWidgetText "b" "x")
        ⟨[("b", ⟨7, .button, none, 0⟩)], [(rootKey, 1)]⟩).ops = [] ∧
    ∃ d, (handleClientCommand (fun _ _ => ⟨"s"⟩) (.setWidgetText "b" "x")
        ⟨[("b", ⟨7, .button, none, 0⟩)], [(rootKey, 1)]⟩).diags = [d] ∧
      d.fatal = false := by
  have h := C6_capability_gating (fun _ _ => ⟨"s"⟩)
    ⟨[("b", ⟨7, .button, none, 0⟩)], [(rootKey, 1)]⟩ (.setWidgetText "b" "x") "b"
    ⟨7, .button, none, 0⟩ (by decide) (by decide) (by decide) (by decide)
  exact ⟨h.2.1, h.2.2⟩
